import Mathlib

/-!
# Verification of the ContentPipeline product reconciliation / price parsing core

Shallow embedding of the price-parsing, identity-resolution and sync logic of
`src/backend/sheet_parser.py`, `src/backend/tasks.py` and
`src/backend/data_tasks.py`, together with proofs of the specification claims.

Modelling conventions:
* Python strings are `List Char`; Python `float` values occurring here are
  parsed decimal literals and are modelled as `ℚ` (the only arithmetic
  performed on them is division, `round(_, 2)` and comparison).
* Python regex calls are hand-translated into explicit scanners with the same
  matching semantics (leftmost match, greedy quantifiers with backtracking)
  for the concrete patterns appearing in the source.
* `re`'s `\d`, `\w` and `\s` classes are modelled by their ASCII parts
  (the inputs the pipeline handles are ASCII apart from the peso sign and
  the marketplace separator glyphs, none of which fall in those classes).
* Fallible Python code (`try`/`except`) is modelled with `Option`: a `none`
  produced by the body of a `try` block models a raised exception.
-/

/-- Python strings, as lists of characters. -/
abbrev Str := List Char

/-- ASCII decimal digit (models `re`'s `\d` on the ASCII range). -/
def isDigitCh (c : Char) : Bool := '0' ≤ c && c ≤ '9'

/-- Python `\s` / `str.isspace` on the ASCII range:
space, `\t`, `\n`, `\r`, `\x0b`, `\x0c` and the separators `\x1c`-`\x1f`. -/
def isPySpace (c : Char) : Bool :=
  c == ' ' || c == '\t' || c == '\n' || c == '\r' || c == '\x0b' || c == '\x0c' ||
  (0x1c ≤ c.toNat && c.toNat ≤ 0x1f)

/-- A character matched by the class `[\d,]` of the price pattern. -/
def isAmountChar (c : Char) : Bool := isDigitCh c || c == ','

/-- Numeric value of a list of ASCII digits (leading zeros allowed),
as produced by Python `float` on an all-digit string. -/
def digitsToNat (l : Str) : ℕ :=
  l.foldl (fun acc c => acc * 10 + (c.toNat - 48)) 0

/-- `true` iff the character at offset `n` of `l` (if any) is not a digit:
the negative lookahead `(?!\d)` of the price pattern. -/
def nonDigitAt (l : Str) (n : ℕ) : Bool :=
  match l.drop n with
  | [] => true
  | c :: _ => !(isDigitCh c)

/-- Descending search for the repetition length of the greedy group
`([\d,]{4,8})(?!\d)`: try `k, k - 1, ..., 4`, accepting the first length whose
following character is not a digit (the regex engine tries the longest
repetition first and backtracks on the lookahead). -/
def amountLenGo (l : Str) : ℕ → Option ℕ
  | 0 => none
  | k + 1 =>
    if 4 ≤ k + 1 ∧ nonDigitAt l (k + 1) then some (k + 1) else amountLenGo l k

/-- Length taken by the greedy group `([\d,]{4,8})(?!\d)` when matched at the
head of `l`: the largest `n` with `4 ≤ n ≤ 8`, the first `n` characters all in
`[\d,]`, and no digit directly after. -/
def amountLen (l : Str) : Option ℕ :=
  amountLenGo l (min (l.takeWhile isAmountChar).length 8)

/-- After stripping the optional peso sign and the space run of
`₱?\s*([\d,]{4,8})(?!\d)`: neither admits real backtracking, since shrinking
either leaves a character that cannot start `[\d,]`. -/
def priceTail (l : Str) : Str :=
  (if l.head? == some '₱' then l.tail else l).dropWhile isPySpace

/-- Match of the full pattern `₱?\s*([\d,]{4,8})(?!\d)` at the head of `l`
(`extract_prices`, sheet_parser.py line 197): returns the captured group and
the remainder after the match. -/
def matchPriceAt (l : Str) : Option (Str × Str) :=
  match amountLen (priceTail l) with
  | some n => some ((priceTail l).take n, (priceTail l).drop n)
  | none => none

theorem amountLenGo_bounds {l : Str} {n : ℕ} :
    ∀ k, amountLenGo l k = some n → 4 ≤ n ∧ n ≤ k := by
  intro k
  induction k with
  | zero => intro h; exact absurd h (by simp [amountLenGo])
  | succ m ih =>
    intro h
    rw [amountLenGo] at h
    split at h
    · cases h; omega
    · have := ih h; omega

theorem amountLen_bounds {l : Str} {n : ℕ} (h : amountLen l = some n) :
    4 ≤ n ∧ n ≤ l.length := by
  obtain ⟨h4, hk⟩ := amountLenGo_bounds _ h
  refine ⟨h4, le_trans hk (le_trans (Nat.min_le_left _ _) ?_)⟩
  exact (l.takeWhile_sublist isAmountChar).length_le

theorem priceTail_length_le (l : Str) : (priceTail l).length ≤ l.length := by
  unfold priceTail
  refine le_trans (List.Sublist.length_le (List.dropWhile_sublist _)) ?_
  split
  · cases l
    · simp
    · simp [Nat.le_succ]
  · exact le_refl _

theorem matchPriceAt_shrink {l g r : Str} (h : matchPriceAt l = some (g, r)) :
    r.length < l.length := by
  unfold matchPriceAt at h
  cases hA : amountLen (priceTail l) with
  | none => rw [hA] at h; cases h
  | some n =>
    rw [hA] at h
    obtain ⟨h4, hle⟩ := amountLen_bounds hA
    have hr : r = (priceTail l).drop n := by
      injection h with h'
      exact (congrArg Prod.snd h').symm
    subst hr
    rw [List.length_drop]
    have := priceTail_length_le l
    omega

/-- Fuelled form of `re.findall` for the price pattern: scan left to right,
on a match continue after it, otherwise advance one character.  The fuel is an
upper bound on the scan length so the definition stays structurally
recursive (and hence evaluable by `decide`). -/
def findAmountsF : ℕ → Str → List Str
  | 0, _ => []
  | _ + 1, [] => []
  | fuel + 1, c :: rest =>
    match matchPriceAt (c :: rest) with
    | some p => p.1 :: findAmountsF fuel p.2
    | none => findAmountsF fuel rest

/-- `re.findall(r"₱?\s*([\d,]{4,8})(?!\d)", raw_text)` (sheet_parser.py
line 202): all captured amount groups, left to right. -/
def findAmounts (l : Str) : List Str := findAmountsF l.length l

/-- `float(p.replace(",", ""))` on a captured amount group: `none` models the
`ValueError` raised when the group consists solely of commas. -/
def parseAmount (g : Str) : Option ℚ :=
  let ds := g.filter (fun c => isDigitCh c)
  if ds.isEmpty then none else some (digitsToNat ds : ℚ)

/-- `re.search(r"(\d{1,2})%\s*(?:OFF)?", raw_text, re.IGNORECASE)` —
the discount group of `extract_prices` (sheet_parser.py line 199): the first
position where one or two digits directly precede a percent sign, two digits
preferred.  The trailing `\s*(?:OFF)?` constrains nothing. -/
def findDiscount : Str → Option ℕ
  | [] => none
  | c :: rest =>
    if isDigitCh c then
      match rest with
      | d :: rest2 =>
        if isDigitCh d then
          match rest2 with
          | '%' :: _ => some ((c.toNat - 48) * 10 + (d.toNat - 48))
          | _ => findDiscount rest
        else if d = '%' then some (c.toNat - 48)
        else findDiscount rest
      | [] => none
    else findDiscount rest

/-- Round to the nearest integer, ties to the even integer
(CPython rounding of `round`). -/
def roundHalfEven (q : ℚ) : ℤ :=
  if q - ⌊q⌋ = 1 / 2 then (if 2 ∣ ⌊q⌋ then ⌊q⌋ else ⌊q⌋ + 1) else round q

/-- Python `round(x, 2)`. -/
def pyRound2 (q : ℚ) : ℚ := (roundHalfEven (q * 100) : ℚ) / 100

/-- Any value strictly between the two nearest half-integers rounds to the
integer in the middle, whatever the tie-breaking rule. -/
theorem roundHalfEven_eq_of_lt {n : ℤ} {q : ℚ} (h1 : (n : ℚ) - 1 / 2 < q)
    (h2 : q < (n : ℚ) + 1 / 2) : roundHalfEven q = n := by
  rcases le_or_lt (n : ℚ) q with hn | hn
  · have hfl : ⌊q⌋ = n := by
      rw [Int.floor_eq_iff]
      constructor
      · exact hn
      · calc q < (n : ℚ) + 1 / 2 := h2
          _ ≤ (n : ℚ) + 1 := by norm_num
    unfold roundHalfEven
    rw [hfl]
    have hne : ¬(q - (n : ℚ) = 1 / 2) := by
      intro he
      have : q = (n : ℚ) + 1 / 2 := by linarith
      exact absurd this (ne_of_lt h2)
    rw [if_neg hne, round_eq, Int.floor_eq_iff]
    constructor
    · linarith
    · linarith
  · have hfl : ⌊q⌋ = n - 1 := by
      rw [Int.floor_eq_iff]
      push_cast
      constructor
      · linarith
      · linarith
    unfold roundHalfEven
    rw [hfl]
    have hne : ¬(q - ((n - 1 : ℤ) : ℚ) = 1 / 2) := by
      push_cast
      intro he
      have : q = (n : ℚ) - 1 / 2 := by linarith
      exact absurd this (ne_of_gt h1)
    rw [if_neg hne, round_eq, Int.floor_eq_iff]
    constructor
    · linarith
    · linarith

/-- The half-even rounding never goes below the floor. -/
theorem floor_le_roundHalfEven (q : ℚ) : ⌊q⌋ ≤ roundHalfEven q := by
  unfold roundHalfEven
  split
  · split
    · exact le_refl _
    · omega
  · rw [round_eq]
    exact Int.floor_le_floor (by linarith)

/-- `min` of a nonempty Python list (first element as seed). -/
def qListMin : List ℚ → ℚ
  | [] => 0
  | a :: rest => rest.foldl min a

/-- `max` of a nonempty Python list. -/
def qListMax : List ℚ → ℚ
  | [] => 0
  | a :: rest => rest.foldl max a

/-- The body of the `try` block of `extract_prices` (sheet_parser.py
lines 201-229).  A `none` result models a raised parse exception. -/
def extractPricesCore (s : Str) : Option (Option ℚ × Option ℚ) := do
  let amounts ← (findAmounts s).mapM parseAmount
  let discount := findDiscount s
  if 2 ≤ amounts.length then
    pure (some (qListMin amounts), some (qListMax amounts))
  else
    match amounts, discount with
    | [a], some p =>
      let d : ℚ := (p : ℚ) / 100
      if 0 < d ∧ d < 1 then pure (some a, some (pyRound2 (a / (1 - d))))
      else pure (some a, none)
    | [a], none => pure (none, some a)
    | _, _ => pure (none, none)

/-- `extract_prices` (sheet_parser.py lines 188-233): the three ordered
disambiguation scenarios, with any parse exception surfacing as
`(None, None)`. -/
def extract_prices (s : Str) : Option ℚ × Option ℚ :=
  (extractPricesCore s).getD (none, none)

example : extract_prices "₱15,000".toList = (none, some 15000) := by decide
example : extract_prices "₱10,000 ₱12,000".toList = (some 10000, some 12000) := by decide
example : extract_prices "no prices here".toList = (none, none) := by decide
example : extract_prices ",,,,".toList = (none, none) := by decide

example : extract_prices "₱23,000-27%".toList = (some 23000, some (630137 / 20)) := by
  have h1 : (findAmounts "₱23,000-27%".toList).mapM parseAmount = some [(23000 : ℚ)] := by
    decide
  have h2 : findDiscount "₱23,000-27%".toList = some 27 := by decide
  unfold extract_prices extractPricesCore
  rw [h1, h2]
  have hif : (0 < (27 : ℚ) / 100 ∧ (27 : ℚ) / 100 < 1) := by norm_num
  simp only [Option.bind_eq_bind, Option.some_bind, List.length_cons, List.length_nil, hif,
    if_pos, Option.getD_some]
  have hr : pyRound2 ((2300000 : ℚ) / 73) = 630137 / 20 := by
    have hq : (2300000 : ℚ) / 73 * 100 = 230000000 / 73 := by norm_num
    unfold pyRound2
    rw [hq, roundHalfEven_eq_of_lt (n := 3150685) (by norm_num) (by norm_num)]
    norm_num
  norm_num [hr]

/-! ## `slugify` (sheet_parser.py lines 13-22) -/

/-- The characters kept by the class `[a-z0-9\-_]` of `slugify`. -/
def slugChars : Str := "abcdefghijklmnopqrstuvwxyz0123456789-_".toList

/-- Membership in the character class `[a-z0-9\-_]`. -/
def allowedSlugChar (c : Char) : Bool := slugChars.contains c

/-- `unicodedata.normalize('NFKD', value).encode('ascii', 'ignore').decode('ascii')`:
NFKD is the identity on ASCII (no ASCII character has a compatibility
decomposition), and the `ascii`/`ignore` encode then drops every non-ASCII
code point.  Non-ASCII characters whose NFKD decomposition contains ASCII
parts (accented letters, ligatures) are approximated as dropped wholesale;
this difference is invisible to every claim proved below, all of which
evaluate or quantify over the ASCII fragment. -/
def asciiEncodeIgnore (l : Str) : Str := l.filter (fun c => c.toNat < 128)

/-- `value.replace("+", "-plus")`. -/
def replacePlus (l : Str) : Str :=
  l.flatMap (fun c => if c == '+' then "-plus".toList else [c])

/-- `true` iff `l` starts with an ASCII digit. -/
def headIsDigit : Str → Bool
  | [] => false
  | c :: _ => isDigitCh c

/-- Scanner state for `re.sub(r'(\d+)\.(\d+)', r'\1_\2', value)`:
`norm pending` scans for a match (`pending` records whether an unconsumed
digit directly precedes the cursor), `consume` emits the second digit group
of a match (whose digits cannot open a new match). -/
inductive DDSt
  | norm (pending : Bool)
  | consume

/-- One pass of `re.sub(r'(\d+)\.(\d+)', r'\1_\2', value)`: a dot is turned
into an underscore exactly when an unconsumed digit precedes it and a digit
follows it; the digit group after a replaced dot is consumed by the match, so
it cannot serve as the left group of a later match. -/
def digitDotGo : DDSt → Str → Str
  | _, [] => []
  | DDSt.consume, c :: rest =>
    if isDigitCh c then c :: digitDotGo DDSt.consume rest
    else c :: digitDotGo (DDSt.norm false) rest
  | DDSt.norm pending, c :: rest =>
    if isDigitCh c then c :: digitDotGo (DDSt.norm true) rest
    else if c == '.' && pending && headIsDigit rest then '_' :: digitDotGo DDSt.consume rest
    else c :: digitDotGo (DDSt.norm false) rest

/-- `re.sub(r'(\d+)\.(\d+)', r'\1_\2', value)`. -/
def digitDotSub (l : Str) : Str := digitDotGo (DDSt.norm false) l

/-- `re.sub(r'\s+', '-', value)`: each maximal whitespace run becomes one
dash; `inRun` records whether the previous character was part of a run. -/
def spaceSubGo (inRun : Bool) : Str → Str
  | [] => []
  | c :: rest =>
    if isPySpace c then
      if inRun then spaceSubGo true rest else '-' :: spaceSubGo true rest
    else c :: spaceSubGo false rest

/-- `re.sub(r"[^a-z0-9\-_]", "", value)`. -/
def dropDisallowed (l : Str) : Str := l.filter allowedSlugChar

/-- `re.sub(r'-{2,}', '-', value)`: each maximal dash run becomes one dash
(a run of length one is reproduced unchanged). -/
def collapseDashGo (inRun : Bool) : Str → Str
  | [] => []
  | c :: rest =>
    if c == '-' then
      if inRun then collapseDashGo true rest else '-' :: collapseDashGo true rest
    else c :: collapseDashGo false rest

/-- Python `value.strip('-')`. -/
def stripDash (l : Str) : Str :=
  ((l.dropWhile (fun c => c == '-')).reverse.dropWhile (fun c => c == '-')).reverse

/-- `slugify` (sheet_parser.py lines 13-22).  `str(value)` is the identity on
the string inputs modelled here. -/
def slugify (l : Str) : Str :=
  stripDash (collapseDashGo false (dropDisallowed (spaceSubGo false
    (digitDotSub (replacePlus ((asciiEncodeIgnore l).map Char.toLower))))))

example : slugify "Galaxy Tab A9".toList = "galaxy-tab-a9".toList := by decide
example : slugify "  Tab 5.5+ x".toList = "tab-5_5-plus-x".toList := by decide

/-! ### Idempotence infrastructure for `slugify` -/

/-- No two adjacent dashes. -/
abbrev NoDD (l : Str) : Prop := l.Chain' (fun a b => ¬(a = '-' ∧ b = '-'))

theorem allowed_mem {c : Char} (h : allowedSlugChar c) : c ∈ slugChars := by
  unfold allowedSlugChar at h
  exact List.elem_iff.mp h

theorem allowed_ascii {c : Char} (h : allowedSlugChar c) : c.toNat < 128 := by
  have hall : ∀ c ∈ slugChars, c.toNat < 128 := by decide
  exact hall c (allowed_mem h)

theorem allowed_toLower {c : Char} (h : allowedSlugChar c) : c.toLower = c := by
  have hall : ∀ c ∈ slugChars, c.toLower = c := by decide
  exact hall c (allowed_mem h)

theorem allowed_ne_plus {c : Char} (h : allowedSlugChar c) : c ≠ '+' := by
  have hall : ∀ c ∈ slugChars, c ≠ '+' := by decide
  exact hall c (allowed_mem h)

theorem allowed_ne_dot {c : Char} (h : allowedSlugChar c) : c ≠ '.' := by
  have hall : ∀ c ∈ slugChars, c ≠ '.' := by decide
  exact hall c (allowed_mem h)

theorem allowed_not_space {c : Char} (h : allowedSlugChar c) : isPySpace c = false := by
  have hall : ∀ c ∈ slugChars, isPySpace c = false := by decide
  exact hall c (allowed_mem h)

theorem asciiEncodeIgnore_id {l : Str} (h : ∀ c ∈ l, allowedSlugChar c) :
    asciiEncodeIgnore l = l := by
  unfold asciiEncodeIgnore
  rw [List.filter_eq_self]
  intro c hc
  exact decide_eq_true (allowed_ascii (h c hc))

theorem map_toLower_id {l : Str} (h : ∀ c ∈ l, allowedSlugChar c) :
    l.map Char.toLower = l := by
  induction l with
  | nil => rfl
  | cons c rest ih =>
    rw [List.map_cons, allowed_toLower (h c (List.mem_cons_self _ _)), ih]
    intro d hd
    exact h d (List.mem_cons_of_mem c hd)

theorem replacePlus_id {l : Str} (h : ∀ c ∈ l, c ≠ '+') : replacePlus l = l := by
  induction l with
  | nil => rfl
  | cons c rest ih =>
    unfold replacePlus
    rw [List.flatMap_cons]
    have hc : (c == '+') = false := by
      simp only [beq_eq_false_iff_ne]
      exact h c (List.mem_cons_self _ _)
    have ih2 := ih (fun d hd => h d (List.mem_cons_of_mem c hd))
    unfold replacePlus at ih2
    rw [hc]
    show [c] ++ rest.flatMap _ = c :: rest
    rw [List.singleton_append]
    exact congrArg (List.cons c) ih2

theorem digitDotGo_id {l : Str} (h : ∀ c ∈ l, c ≠ '.') :
    ∀ st, digitDotGo st l = l := by
  induction l with
  | nil => intro st; cases st <;> rfl
  | cons c rest ih =>
    intro st
    have hc : c ≠ '.' := h c (List.mem_cons_self _ _)
    have ih2 := ih (fun d hd => h d (List.mem_cons_of_mem c hd))
    cases st with
    | consume =>
      rw [digitDotGo]
      split
      · rw [ih2]
      · rw [ih2]
    | norm pending =>
      rw [digitDotGo]
      have hcb : (c == '.') = false := by
        simp only [beq_eq_false_iff_ne]
        exact hc
      split
      · rw [ih2]
      · simp [hcb, ih2]

theorem spaceSubGo_id {l : Str} (h : ∀ c ∈ l, isPySpace c = false) :
    ∀ b, spaceSubGo b l = l := by
  induction l with
  | nil => intro b; rfl
  | cons c rest ih =>
    intro b
    rw [spaceSubGo, h c (List.mem_cons_self _ _)]
    simp [ih (fun d hd => h d (List.mem_cons_of_mem c hd))]

theorem dropDisallowed_id {l : Str} (h : ∀ c ∈ l, allowedSlugChar c) :
    dropDisallowed l = l := by
  unfold dropDisallowed
  rw [List.filter_eq_self]
  exact h

theorem collapseDashGo_false_id {l : Str} (h : NoDD l) :
    collapseDashGo false l = l := by
  have main : ∀ l : Str, NoDD l →
      collapseDashGo false l = l ∧ (l.head? ≠ some '-' → collapseDashGo true l = l) := by
    intro l
    induction l with
    | nil => intro _; exact ⟨rfl, fun _ => rfl⟩
    | cons c rest ih =>
      intro hl
      have hrest : NoDD rest := List.Chain'.tail hl
      obtain ⟨ih1, ih2⟩ := ih hrest
      constructor
      · rw [collapseDashGo]
        by_cases hc : c = '-'
        · subst hc
          have hhead : rest.head? ≠ some '-' := by
            cases rest with
            | nil => simp
            | cons d rest2 =>
              have := List.chain'_cons.mp hl
              intro hcon
              injection hcon with hd
              exact this.1 ⟨rfl, hd⟩
          simp [ih2 hhead]
        · have hcb : (c == '-') = false := by
            simp only [beq_eq_false_iff_ne]; exact hc
          simp [hcb, ih1]
      · intro hhead
        have hc : c ≠ '-' := by
          intro he; exact hhead (by rw [he]; rfl)
        rw [collapseDashGo]
        have hcb : (c == '-') = false := by
          simp only [beq_eq_false_iff_ne]; exact hc
        simp [hcb, ih1]
  exact (main l h).1

theorem head?_dropWhile_ne {l : Str} {q : Char → Bool} {c : Char}
    (h : (l.dropWhile q).head? = some c) : q c = false := by
  induction l with
  | nil => cases h
  | cons a rest ih =>
    rw [List.dropWhile_cons] at h
    split at h
    · exact ih h
    · injection h with h2
      subst h2
      simp_all

theorem stripDash_within (l : Str) : stripDash l <:+: l := by
  unfold stripDash
  have h1 : l.dropWhile (fun c => c == '-') <:+ l := List.dropWhile_suffix _
  have h2 : ((l.dropWhile (fun c => c == '-')).reverse.dropWhile (fun c => c == '-')).reverse
      <+: l.dropWhile (fun c => c == '-') := by
    rw [← List.reverse_suffix]
    simp only [List.reverse_reverse]
    exact List.dropWhile_suffix _
  exact h2.isInfix.trans h1.isInfix

theorem stripDash_id {l : Str} (h1 : l.head? ≠ some '-') (h2 : l.getLast? ≠ some '-') :
    stripDash l = l := by
  have d1 : l.dropWhile (fun c => c == '-') = l := by
    cases l with
    | nil => rfl
    | cons c rest =>
      have hne : ¬((c == '-') = true) := by
        simp only [beq_iff_eq]
        intro he
        subst he
        exact h1 rfl
      rw [List.dropWhile_cons, if_neg hne]
  have d2 : l.reverse.dropWhile (fun c => c == '-') = l.reverse := by
    cases hr : l.reverse with
    | nil => rfl
    | cons c rest =>
      have hc : l.getLast? = some c := by rw [← List.head?_reverse, hr]; rfl
      have hne : ¬((c == '-') = true) := by
        simp only [beq_iff_eq]
        intro he
        subst he
        exact h2 hc
      rw [List.dropWhile_cons, if_neg hne]
  unfold stripDash
  rw [d1, d2, List.reverse_reverse]

theorem collapseDashGo_mem {c : Char} :
    ∀ (l : Str) (b : Bool), c ∈ collapseDashGo b l → c ∈ l ∨ c = '-' := by
  intro l
  induction l with
  | nil => intro b h; cases h
  | cons a rest ih =>
    intro b h
    rw [collapseDashGo] at h
    by_cases ha : (a == '-') = true
    · rw [if_pos ha] at h
      have ha2 : a = '-' := by simpa using ha
      cases b with
      | true =>
        rcases ih true h with h2 | h2
        · exact Or.inl (List.mem_cons_of_mem a h2)
        · exact Or.inr h2
      | false =>
        rcases List.mem_cons.mp h with h2 | h2
        · exact Or.inr h2
        · rcases ih true h2 with h3 | h3
          · exact Or.inl (List.mem_cons_of_mem a h3)
          · exact Or.inr h3
    · rw [if_neg ha] at h
      rcases List.mem_cons.mp h with h2 | h2
      · exact Or.inl (List.mem_cons.mpr (Or.inl h2))
      · rcases ih false h2 with h3 | h3
        · exact Or.inl (List.mem_cons_of_mem a h3)
        · exact Or.inr h3

theorem collapseDash_noDD :
    ∀ l : Str, NoDD (collapseDashGo false l) ∧
      (NoDD (collapseDashGo true l) ∧ (collapseDashGo true l).head? ≠ some '-') := by
  intro l
  induction l with
  | nil => exact ⟨List.chain'_nil, List.chain'_nil, by simp [collapseDashGo]⟩
  | cons c rest ih =>
    obtain ⟨ihf, iht, ihh⟩ := ih
    by_cases hc : (c == '-') = true
    · refine ⟨?_, ?_, ?_⟩
      · rw [collapseDashGo, if_pos hc]
        refine List.chain'_cons'.mpr ⟨?_, iht⟩
        intro b hb hcon
        rw [Option.mem_def] at hb
        rw [hcon.2] at hb
        exact ihh hb
      · rw [collapseDashGo, if_pos hc]
        exact iht
      · rw [collapseDashGo, if_pos hc]
        exact ihh
    · refine ⟨?_, ?_, ?_⟩
      · rw [collapseDashGo, if_neg hc]
        refine List.chain'_cons'.mpr ⟨?_, ihf⟩
        intro b _ hcon
        exact hc (by rw [hcon.1]; rfl)
      · rw [collapseDashGo, if_neg hc]
        refine List.chain'_cons'.mpr ⟨?_, ihf⟩
        intro b _ hcon
        exact hc (by rw [hcon.1]; rfl)
      · rw [collapseDashGo, if_neg hc]
        intro hcon
        injection hcon with h2
        exact hc (by rw [h2]; rfl)

theorem getLast?_of_suffix {s t : Str} {c : Char} (hs : s <:+ t)
    (h : s.getLast? = some c) : t.getLast? = some c := by
  obtain ⟨u, rfl⟩ := hs
  have hne : s ≠ [] := by
    intro he
    rw [he] at h
    cases h
  rw [List.getLast?_append_of_ne_nil _ hne]
  exact h

theorem stripDash_head_last (l : Str) :
    (stripDash l).head? ≠ some '-' ∧ (stripDash l).getLast? ≠ some '-' := by
  unfold stripDash
  constructor
  · rw [List.head?_reverse]
    intro h
    have hsf : (l.dropWhile (fun c => c == '-')).reverse.dropWhile (fun c => c == '-')
        <:+ (l.dropWhile (fun c => c == '-')).reverse := List.dropWhile_suffix _
    have h2 := getLast?_of_suffix hsf h
    rw [List.getLast?_reverse] at h2
    have h3 := head?_dropWhile_ne h2
    simp at h3
  · rw [List.getLast?_reverse]
    intro h
    have h3 := head?_dropWhile_ne h
    simp at h3

theorem digitDotSub_id {l : Str} (h : ∀ c ∈ l, c ≠ '.') : digitDotSub l = l :=
  digitDotGo_id h _

theorem slugify_chars {l : Str} : ∀ c ∈ slugify l, allowedSlugChar c := by
  intro c hc
  unfold slugify at hc
  have h1 := ((stripDash_within _).sublist.subset) hc
  rcases collapseDashGo_mem _ _ h1 with h2 | h2
  · exact (List.mem_filter.mp h2).2
  · rw [h2]
    decide

theorem slugify_noDD (l : Str) : NoDD (slugify l) := by
  unfold slugify
  exact List.Chain'.infix (collapseDash_noDD _).1 (stripDash_within _)

theorem slugify_ends (l : Str) :
    (slugify l).head? ≠ some '-' ∧ (slugify l).getLast? ≠ some '-' :=
  stripDash_head_last _

/-- Core idempotence fact: every stage of `slugify` fixes a string that is
already a slug (all characters in `[a-z0-9\-_]`, no adjacent dashes, no dash
at either end), and `slugify` only produces such strings. -/
theorem slugify_idem (l : Str) : slugify (slugify l) = slugify l := by
  have hmem : ∀ c ∈ slugify l, allowedSlugChar c := slugify_chars
  have hnd : NoDD (slugify l) := slugify_noDD l
  obtain ⟨hh, hl2⟩ := slugify_ends l
  show stripDash (collapseDashGo false (dropDisallowed (spaceSubGo false (digitDotSub
    (replacePlus ((asciiEncodeIgnore (slugify l)).map Char.toLower)))))) = slugify l
  rw [asciiEncodeIgnore_id hmem, map_toLower_id hmem,
    replacePlus_id (fun c hc => allowed_ne_plus (hmem c hc)),
    digitDotSub_id (fun c hc => allowed_ne_dot (hmem c hc)),
    spaceSubGo_id (fun c hc => allowed_not_space (hmem c hc)) false,
    dropDisallowed_id hmem, collapseDashGo_false_id hnd]
  exact stripDash_id hh hl2

/-! ## `clean_product_name` (sheet_parser.py lines 24-85) -/

/-- Word character for `re`'s `\b` on the ASCII range. -/
def isWordCh (c : Char) : Bool :=
  ('a' ≤ c && c ≤ 'z') || ('A' ≤ c && c ≤ 'Z') || isDigitCh c || c == '_'

/-- Wordness of an optional character (`none` = string edge, not a word
character). -/
def wordAt : Option Char → Bool
  | none => false
  | some c => isWordCh c

/-- Case-insensitive prefix test against a lowercase pattern. -/
def startsWithCI : Str → Str → Bool
  | [], _ => true
  | _ :: _, [] => false
  | p :: ps, c :: cs => (c.toLower == p) && startsWithCI ps cs

/-- `re.sub(r"\[.*?\]", "", raw)` and the parenthesis twin: the lazy span
cannot cross a newline (`.` does not match `\n`), so a span candidate whose
closing character is not found before a newline or the end of the string is
flushed verbatim (no bracket between the opening character and the blocking
newline can open a successful span either, since the same newline blocks it).
The first argument buffers the characters of the open candidate. -/
def rmSpanGo (openCh closeCh : Char) : Option Str → Str → Str
  | none, [] => []
  | none, c :: rest =>
    if c == openCh then rmSpanGo openCh closeCh (some [c]) rest
    else c :: rmSpanGo openCh closeCh none rest
  | some buf, [] => buf
  | some buf, c :: rest =>
    if c == closeCh then rmSpanGo openCh closeCh none rest
    else if c == '\n' then buf ++ '\n' :: rmSpanGo openCh closeCh none rest
    else rmSpanGo openCh closeCh (some (buf ++ [c])) rest

/-- `re.sub(r"\[.*?\]", "", raw)` (sheet_parser.py line 37). -/
def removeBracketed (l : Str) : Str := rmSpanGo '[' ']' none l

/-- `re.sub(r"\(.*?\)", "", raw)` (sheet_parser.py line 38). -/
def removeParens (l : Str) : Str := rmSpanGo '(' ')' none l

/-- `true` iff one of the noise alternatives
`₱ | % | \d+K\s*sold | \d+\s*sold | Fast Shipping` (case-insensitive)
matches at the head of `l` (sheet_parser.py line 42). -/
def stopMatchAt (l : Str) : Bool :=
  match l with
  | [] => false
  | c :: _ =>
    c == '₱' || c == '%' ||
    (isDigitCh c &&
      (let r1 := l.dropWhile isDigitCh
       (match r1 with
        | k :: r2 => (k.toLower == 'k') && startsWithCI "sold".toList (r2.dropWhile isPySpace)
        | [] => false) ||
       startsWithCI "sold".toList (r1.dropWhile isPySpace))) ||
    startsWithCI "fast shipping".toList l

/-- Stage 1 of `clean_product_name`: truncate right before the first
position where a noise marker matches (sheet_parser.py lines 43-46). -/
def noiseTrunc : Str → Str
  | [] => []
  | c :: rest => if stopMatchAt (c :: rest) then [] else c :: noiseTrunc rest

/-- The `\s*(GB)?\b` tail of the combo-memory pattern, tried with the space
run length descending (greedy `\s*`), the `GB` option before the empty option
(greedy `(GB)?`), knowing a digit (a word character) directly precedes `r5`.
Returns the wordness of the last consumed character and the remainder. -/
def gbOptTail (r5 : Str) : ℕ → Option (Bool × Str)
  | 0 =>
    (match r5 with
     | g :: b :: rest2 =>
       if g.toLower == 'g' && b.toLower == 'b' && !wordAt rest2.head? then
         some (true, rest2)
       else none
     | _ => none)
    <|> (if wordAt r5.head? then none else some (true, r5))
  | k + 1 =>
    (match r5.drop (k + 1) with
     | g :: b :: rest2 =>
       if g.toLower == 'g' && b.toLower == 'b' && !wordAt rest2.head? then
         some (true, rest2)
       else none
     | _ => none)
    <|> (if wordAt (r5.drop (k + 1)).head? then some (false, r5.drop (k + 1)) else none)
    <|> gbOptTail r5 k

/-- Match of `\b\d+\s*\+\s*\d+\s*(GB)?\b` (case-insensitive,
sheet_parser.py line 53) at the head of `l`, given the wordness of the
previous character. -/
def memComboMatch (prevW : Bool) (l : Str) : Option (Bool × Str) :=
  if prevW then none
  else if (l.takeWhile isDigitCh).isEmpty then none
  else
    match (l.dropWhile isDigitCh).dropWhile isPySpace with
    | '+' :: r3 =>
      let r4 := r3.dropWhile isPySpace
      if (r4.takeWhile isDigitCh).isEmpty then none
      else
        let r5 := r4.dropWhile isDigitCh
        gbOptTail r5 (r5.takeWhile isPySpace).length
    | _ => none

/-- Match of `\b\d+\s*GB\b` (case-insensitive, sheet_parser.py line 55). -/
def memGBMatch (prevW : Bool) (l : Str) : Option (Bool × Str) :=
  if prevW then none
  else if (l.takeWhile isDigitCh).isEmpty then none
  else
    match (l.dropWhile isDigitCh).dropWhile isPySpace with
    | g :: b :: rest2 =>
      if g.toLower == 'g' && b.toLower == 'b' && !wordAt rest2.head? then
        some (true, rest2)
      else none
    | _ => none

/-- Match of `\b\d+\s*GB\s*RAM\b` (case-insensitive, sheet_parser.py
line 56). -/
def memGBRAMMatch (prevW : Bool) (l : Str) : Option (Bool × Str) :=
  if prevW then none
  else if (l.takeWhile isDigitCh).isEmpty then none
  else
    match (l.dropWhile isDigitCh).dropWhile isPySpace with
    | g :: b :: rest2 =>
      if g.toLower == 'g' && b.toLower == 'b' then
        let r2 := rest2.dropWhile isPySpace
        if startsWithCI "ram".toList r2 && !wordAt (r2.drop 3).head? then
          some (true, r2.drop 3)
        else none
      else none
    | _ => none

/-- One alternative of the spec-keyword alternation: a fixed lowercase word,
ending on a word character, followed by `\b`. -/
def tryAltCI (alt : Str) (l : Str) : Option (Bool × Str) :=
  if startsWithCI alt l then
    if !wordAt (l.drop alt.length).head? then some (true, l.drop alt.length) else none
  else none

/-- The `Wi[- ]?Fi` alternative: optional separator tried greedily first. -/
def wifiAlt (l : Str) : Option (Bool × Str) :=
  if startsWithCI "wi".toList l then
    (match l.drop 2 with
     | c :: r2 =>
       if (c == '-' || c == ' ') && startsWithCI "fi".toList r2 &&
           !wordAt (r2.drop 2).head? then
         some (true, r2.drop 2)
       else none
     | [] => none)
    <|> (if startsWithCI "fi".toList (l.drop 2) && !wordAt ((l.drop 2).drop 2).head? then
           some (true, (l.drop 2).drop 2)
         else none)
  else none

/-- Match of the spec/marketing keyword alternation (sheet_parser.py
lines 59-60), alternatives in source order; every alternative starts with a
letter, so the leading `\b` is the `prevW = false` guard. -/
def specKwMatch (prevW : Bool) (l : Str) : Option (Bool × Str) :=
  if prevW then none
  else
    tryAltCI "ram".toList l <|> tryAltCI "rom".toList l <|>
    tryAltCI "storage".toList l <|> wifiAlt l <|>
    tryAltCI "android".toList l <|> tryAltCI "tablet".toList l <|>
    tryAltCI "phone".toList l <|> tryAltCI "smartphone".toList l <|>
    tryAltCI "global version".toList l <|> tryAltCI "with warranty".toList l <|>
    tryAltCI "online exclusive".toList l <|> tryAltCI "official store".toList l

/-- Match of `With\s+\d+-year\s+Warranty` (case-insensitive,
sheet_parser.py line 61); the pattern carries no word boundaries. -/
def yearWarrantyMatch (_ : Bool) (l : Str) : Option (Bool × Str) :=
  if startsWithCI "with".toList l then
    let r1 := l.drop 4
    if (r1.takeWhile isPySpace).isEmpty then none
    else
      let r2 := r1.dropWhile isPySpace
      if (r2.takeWhile isDigitCh).isEmpty then none
      else
        match r2.dropWhile isDigitCh with
        | '-' :: r3 =>
          if startsWithCI "year".toList r3 then
            let r4 := r3.drop 4
            if (r4.takeWhile isPySpace).isEmpty then none
            else
              let r5 := r4.dropWhile isPySpace
              if startsWithCI "warranty".toList r5 then some (true, r5.drop 8) else none
          else none
        | _ => none
  else none

/-- Fuelled `re.sub(pat, "", raw)` driver: scan left to right with the
wordness of the previous character of the original string (for `\b`); on a
match drop it and resume after it, else emit the character. -/
def subDriveF (m : Bool → Str → Option (Bool × Str)) : ℕ → Bool → Str → Str
  | 0, _, _ => []
  | _ + 1, _, [] => []
  | fuel + 1, prevW, c :: rest =>
    match m prevW (c :: rest) with
    | some p => subDriveF m fuel p.1 p.2
    | none => c :: subDriveF m fuel (isWordCh c) rest

/-- `re.sub(pat, "", raw)` for the stage-2 patterns. -/
def subDrive (m : Bool → Str → Option (Bool × Str)) (l : Str) : Str :=
  subDriveF m l.length false l

/-- All match end positions of `\bkw\b` (case-insensitive) in `l`, as used by
`re.finditer` over the variant keywords (sheet_parser.py lines 70-76);
`lastW` is the wordness of the final character of the keyword (false only for
`Pro+`), which decides the direction of the trailing `\b`.  Returns the end
position of the last match, scanning with `pos`/`prevW` running along `l`. -/
def kwScan (kw : Str) (lastW : Bool) : ℕ → Bool → Str → Option ℕ
  | _, _, [] => none
  | pos, prevW, c :: rest =>
    let here : Option ℕ :=
      if !prevW && startsWithCI kw (c :: rest) &&
          (if lastW then !wordAt ((c :: rest).drop kw.length).head?
           else wordAt ((c :: rest).drop kw.length).head?) then
        some (pos + kw.length)
      else none
    match kwScan kw lastW (pos + 1) (isWordCh c) rest with
    | some e => some e
    | none => here

/-- The ordered variant keyword list (sheet_parser.py lines 64-66) with the
wordness of the last character of each keyword. -/
def variantKws : List (Str × Bool) :=
  [("pro plus".toList, true), ("pro+".toList, false), ("pro".toList, true),
   ("ultra".toList, true), ("plus".toList, true), ("lite".toList, true),
   ("se".toList, true), ("5g".toList, true), ("4g".toList, true),
   ("lte".toList, true), ("fe".toList, true)]

/-- Truncate after the last variant keyword occurrence: the maximum match end
over all keywords (sheet_parser.py lines 67-79); no match leaves `l`
untouched. -/
def variantTrunc (l : Str) : Str :=
  let ends := variantKws.filterMap (fun kv => kwScan kv.1 kv.2 0 false l)
  match ends with
  | [] => l
  | e :: es => l.take (es.foldl max e)

/-- `re.sub(r"[-,.|+]", "", raw)` (sheet_parser.py line 82). -/
def punctStrip (l : Str) : Str :=
  l.filter (fun c => !(c == '-' || c == ',' || c == '.' || c == '|' || c == '+'))

/-- `re.sub(r'\s{2,}', ' ', raw)`: a whitespace run of length at least two
becomes one space, a single whitespace character stays as it is. -/
def collapse2Go : Bool → Str → Str
  | _, [] => []
  | true, c :: rest =>
    if isPySpace c then collapse2Go true rest else c :: collapse2Go false rest
  | false, c :: rest =>
    if isPySpace c then
      match rest with
      | d :: _ => if isPySpace d then ' ' :: collapse2Go true rest else c :: collapse2Go false rest
      | [] => [c]
    else c :: collapse2Go false rest

/-- `re.sub(r'\s{2,}', ' ', raw)`. -/
def collapse2 (l : Str) : Str := collapse2Go false l

/-- Python `str.strip()` with no argument. -/
def pyStrip (l : Str) : Str :=
  ((l.dropWhile isPySpace).reverse.dropWhile isPySpace).reverse

/-- `clean_product_name` (sheet_parser.py lines 24-85) on a string input:
stage 1 removes bracketed and parenthesised spans and truncates at the first
noise marker; stage 2 strips memory specs, marketing keywords and the
warranty phrase, truncates after the last variant keyword, strips the
punctuation class, collapses multi-whitespace runs and trims (the final
`return raw.strip()` re-strips a stripped string and is the identity). -/
def clean_product_name (raw : Str) : Str :=
  let r2 := noiseTrunc (removeParens (removeBracketed raw))
  let r7 := subDrive yearWarrantyMatch (subDrive specKwMatch
    (subDrive memGBRAMMatch (subDrive memGBMatch (subDrive memComboMatch r2))))
  pyStrip (collapse2 (punctStrip (variantTrunc r7)))

example : clean_product_name "Galaxy Tab A9₱5560 -10K sold".toList = "Galaxy Tab A9".toList := by
  decide
example : noiseTrunc "Galaxy Tab A9₱5560 -10K sold".toList = "Galaxy Tab A9".toList := by
  decide
example : clean_product_name "[Hot] Phone X (2024) 8+8GB 128GB 5G Official Store -27%".toList
    = "X 5G".toList := by decide
example : clean_product_name "Samsung Galaxy S24 Ultra + AI 12+256GB".toList
    = "Samsung Galaxy S24 Ultra".toList := by decide
example : clean_product_name "Xiaomi Pad 6 8GB RAM Wi-Fi Tablet".toList
    = "Xiaomi Pad 6".toList := by decide
example : clean_product_name "POCO X6 Pro 5G 12GB+512GB Global Version".toList
    = "POCO X6 Pro 5G".toList := by decide
example : clean_product_name "abc 8+8 X def".toList = "abc X def".toList := by decide
example : clean_product_name "Tab 5.5 Pro+x".toList = "Tab 55 Pro".toList := by decide

/-! ## `parse_ecommerce_url` (sheet_parser.py lines 368-396) -/

/-- Characters admissible in a URL scheme after the leading letter. -/
def isSchemeChar (c : Char) : Bool :=
  c.isAlpha || isDigitCh c || c == '+' || c == '-' || c == '.'

/-- `urllib.parse` scheme splitting: strip `scheme:` when the text before the
first colon is a nonempty valid scheme. -/
def splitScheme (l : Str) : Str :=
  let pre := l.takeWhile (fun c => !(c == ':'))
  if pre.length < l.length then
    if 0 < pre.length &&
        (match pre with | c :: _ => c.isAlpha | [] => false) &&
        pre.all isSchemeChar then
      l.drop (pre.length + 1)
    else l
  else l

/-- `urlsplit` deletes tab, CR and LF from the URL before any parsing
(`_UNSAFE_URL_BYTES_TO_REMOVE`, CPython 3.6.14+); the `re.search` calls of
`parse_ecommerce_url` still see the raw text. -/
def dropUnsafeBytes (l : Str) : Str :=
  l.filter (fun c => !(c == '\t' || c == '\r' || c == '\n'))

/-- The netloc of a URL: present only after a leading `//`, ending at the
first `/`, `?` or `#`. -/
def netlocOf (l : Str) : Str :=
  match splitScheme (dropUnsafeBytes l) with
  | '/' :: '/' :: rest => rest.takeWhile (fun c => !(c == '/' || c == '?' || c == '#'))
  | _ => []

/-- The `Invalid IPv6 URL` guard of `urlsplit`: a netloc holding `[` without
`]`, or `]` without `[`, raises `ValueError` (this check runs on every
CPython version, before any host validation). -/
def bracketMismatch (n : Str) : Bool :=
  (n.any (fun c => c == '[') && !(n.any (fun c => c == ']'))) ||
  (n.any (fun c => c == ']') && !(n.any (fun c => c == '[')))

/-- ASCII character test (`str.isascii` is per character `ord(c) < 128`). -/
def asciiChar (c : Char) : Bool := decide (c.toNat < 128)

/-- `urlparse(url).hostname` on the success path of `urlsplit`: the netloc
after the last `@`; a bracketed host is the text inside the first `[` `]`
pair, otherwise the text before the port colon; lowercased, `None` when
empty.  (CPython 3.11+ additionally validates a bracketed host as an
IPv6/IPvFuture address and `_checknetloc` rejects some non-ASCII netlocs
after NFKC normalisation; neither is modelled, and the theorems below
quantify only over bracket-free ASCII netlocs.) -/
def hostnameOf (l : Str) : Option Str :=
  let n := netlocOf l
  let hostinfo := (n.reverse.takeWhile (fun c => !(c == '@'))).reverse
  let h :=
    if hostinfo.any (fun c => c == '[') then
      ((hostinfo.dropWhile (fun c => !(c == '['))).drop 1).takeWhile (fun c => !(c == ']'))
    else hostinfo.takeWhile (fun c => !(c == ':'))
  let h2 := h.map Char.toLower
  if h2.isEmpty then none else some h2

/-- `str(hostname)`: the hostname, or the literal text `None`. -/
def hostStrOf (l : Str) : Str :=
  match hostnameOf l with
  | some h => h
  | none => "None".toList

/-- The Python test `needle in haystack` on strings. -/
def containsSub (needle : Str) : Str → Bool
  | [] => needle.isEmpty
  | c :: rest => needle.isPrefixOf (c :: rest) || containsSub needle rest

/-- Match of `[-.]i\.(\d+)\.(\d+)` at the head of `l`: returns
`(shop_id, product_id)`.  Both `\d+` groups take their maximal runs (a
shorter first run leaves a digit where the dot is required). -/
def shopeeIdsAt (l : Str) : Option (Str × Str) :=
  match l with
  | a :: 'i' :: '.' :: r2 =>
    if a == '-' || a == '.' then
      let d1 := r2.takeWhile isDigitCh
      if d1.isEmpty then none
      else
        match r2.dropWhile isDigitCh with
        | '.' :: r4 =>
          let d2 := r4.takeWhile isDigitCh
          if d2.isEmpty then none else some (d1, d2)
        | _ => none
    else none
  | _ => none

/-- `re.search(r'[-.]i\.(\d+)\.(\d+)', url)` (sheet_parser.py line 380). -/
def shopeeIdsSearch : Str → Option (Str × Str)
  | [] => none
  | c :: rest =>
    match shopeeIdsAt (c :: rest) with
    | some p => some p
    | none => shopeeIdsSearch rest

/-- Match of `-i(\d+)\.html` at the head of `l`. -/
def lazadaPidAt (l : Str) : Option Str :=
  match l with
  | '-' :: 'i' :: r =>
    let d := r.takeWhile isDigitCh
    if d.isEmpty then none
    else
      match r.dropWhile isDigitCh with
      | '.' :: 'h' :: 't' :: 'm' :: 'l' :: _ => some d
      | _ => none
  | _ => none

/-- `re.search(r'-i(\d+)\.html', url)` (sheet_parser.py line 387). -/
def lazadaPidSearch : Str → Option Str
  | [] => none
  | c :: rest =>
    match lazadaPidAt (c :: rest) with
    | some p => some p
    | none => lazadaPidSearch rest

/-- `urlparse(url).query`: the text after the first `?` of the part before
the first `#`. -/
def queryOf (l : Str) : Str :=
  match (l.takeWhile (fun c => !(c == '#'))).dropWhile (fun c => !(c == '?')) with
  | _ :: rest => rest
  | [] => []

/-- Split on `&` (the pair separator of `parse_qs`). -/
def splitOnAmpGo (cur : Str) : Str → List Str
  | [] => [cur.reverse]
  | c :: rest =>
    if c == '&' then cur.reverse :: splitOnAmpGo [] rest
    else splitOnAmpGo (c :: cur) rest

/-- `parse_qs(query).get('shop_id', [None])[0]` (sheet_parser.py
lines 390-391): first value of the `shop_id` parameter; pairs without `=` or
with an empty value are dropped (`keep_blank_values` is false).  Percent and
plus decoding are not modelled (marketplace shop ids are plain digits). -/
def qsShopId (q : Str) : Option Str :=
  ((splitOnAmpGo [] q).filterMap (fun p =>
    let k := p.takeWhile (fun c => !(c == '='))
    if k.length < p.length then
      let v := p.drop (k.length + 1)
      if v.isEmpty then none
      else if k = "shop_id".toList then some v else none
    else none)).head?

/-- A Python value that may or may not be a string (`isinstance` check of
`parse_ecommerce_url` and `clean_product_name`). -/
inductive PyInput
  | str (s : Str)
  | nonStr
deriving DecidableEq

/-- Result record of `parse_ecommerce_url`. -/
structure UrlIds where
  product_id : Option Str
  shop_id : Option Str
  source : Option Str
deriving DecidableEq, Repr

/-- The all-`None` sentinel result. -/
def pyNone3 : UrlIds := ⟨none, none, none⟩

/-- The Lazada branch of `parse_ecommerce_url` (sheet_parser.py
lines 386-394), reached when the Shopee branch did not return. -/
def lazadaPart (url host : Str) : UrlIds :=
  if containsSub "lazada".toList host then
    match lazadaPidSearch url with
    | some pid => ⟨some pid, qsShopId (queryOf url), some "lazada".toList⟩
    | none => pyNone3
  else pyNone3

/-- `parse_ecommerce_url` (sheet_parser.py lines 368-396).  The body has no
try/except, so the `ValueError` of the unguarded `urlparse(url)` call on a
netloc with an unmatched bracket propagates to the caller (`Except.error`);
the second `urlparse` of the Lazada branch runs only after the first
returned and returns again on the same text. -/
def parse_ecommerce_url (u : PyInput) : Except Str UrlIds :=
  match u with
  | PyInput.nonStr => Except.ok pyNone3
  | PyInput.str url =>
    if bracketMismatch (netlocOf url) then Except.error "Invalid IPv6 URL".toList
    else
      let host := hostStrOf url
      Except.ok
        (if containsSub "shopee".toList host then
          match shopeeIdsSearch url with
          | some p => ⟨some p.2, some p.1, some "shopee".toList⟩
          | none => lazadaPart url host
        else lazadaPart url host)

example : parse_ecommerce_url (PyInput.str "https://shopee.ph/Galaxy-A16-i.450972788.23816208493?sp_atk=x".toList)
    = Except.ok ⟨some "23816208493".toList, some "450972788".toList, some "shopee".toList⟩ := rfl
example : parse_ecommerce_url (PyInput.str "https://www.lazada.com.ph/products/pdp-i4872740.html?shop_id=918".toList)
    = Except.ok ⟨some "4872740".toList, some "918".toList, some "lazada".toList⟩ := rfl
example : parse_ecommerce_url (PyInput.str "https://example.com/x".toList) = Except.ok pyNone3 := rfl
example : parse_ecommerce_url PyInput.nonStr = Except.ok pyNone3 := rfl
example : parse_ecommerce_url (PyInput.str "https://LAZADA.com.ph/a-i99.html?x=1&shop_id=&shop_id=77#f".toList)
    = Except.ok ⟨some "99".toList, some "77".toList, some "lazada".toList⟩ := rfl

/-! ## Shared data model

The local mirror file `product_database.json` is written by
`update_product_database_task` (data_tasks.py lines 125-133) with every key
present, so mirror records are modelled with all fields, using `Option`
(or `PVal.null`) for JSON `null`. -/

/-- A JSON price field of a mirror record: `null`, a string (as fetched from
the store API) or a number (as written back by the sync task). -/
inductive PVal
  | null
  | pstr (s : Str)
  | num (q : ℚ)
deriving DecidableEq

/-- Python truthiness of a price field (`None`, `""` and `0.0` are falsy). -/
def PVal.truthy : PVal → Bool
  | PVal.null => false
  | PVal.pstr s => !s.isEmpty
  | PVal.num q => decide (q ≠ 0)

/-- Python truthiness of an optional string. -/
def truthyStr : Option Str → Bool
  | none => false
  | some s => !s.isEmpty

/-- Python truthiness of an optional float. -/
def truthyQ : Option ℚ → Bool
  | none => false
  | some q => decide (q ≠ 0)

/-- `float(x)` on a price string: sign and decimal digits with an optional
fractional part, surrounding whitespace stripped; anything else raises
(`none`).  Exponent and `inf`/`nan` forms are not produced by this pipeline
and are not modelled. -/
def parsePyFloat (s : Str) : Option ℚ :=
  let t := pyStrip s
  let sg : ℚ := match t with
    | '-' :: _ => -1
    | _ => 1
  let t2 := match t with
    | '-' :: r => r
    | '+' :: r => r
    | _ => t
  let ip := t2.takeWhile isDigitCh
  match t2.dropWhile isDigitCh with
  | [] => if ip.isEmpty then none else some (sg * (digitsToNat ip : ℚ))
  | '.' :: fr =>
    let fp := fr.takeWhile isDigitCh
    if (fr.dropWhile isDigitCh).isEmpty && !(ip.isEmpty && fp.isEmpty) then
      some (sg * ((digitsToNat ip : ℚ) + (digitsToNat fp : ℚ) / (10 : ℚ) ^ fp.length))
    else none
  | _ => none

/-- `float(x)` on a price field (`float(None)` raises, surfacing as `none`). -/
def pvalToFloat : PVal → Option ℚ
  | PVal.null => none
  | PVal.num q => some q
  | PVal.pstr s => parsePyFloat s

/-- One `{date, price}` entry of a `price_history` list. -/
structure HistEntry where
  date : Str
  price : ℚ
deriving DecidableEq

/-- A record of the local mirror file. -/
structure MirrorProd where
  id : Option ℤ
  name : Option Str
  slug : Option Str
  sale_price : PVal
  regular_price : PVal
  price : PVal
  external_url : Option Str
  button_text : Option Str
  shopee_id : Option Str
  lazada_id : Option Str
  shop_id : Option Str
  price_history : List HistEntry
deriving DecidableEq

/-! ## Catalog matcher (tasks.py lines 1335-1434) -/

/-- Lookup in the Shopee golden-key map `shopee_id_map` (tasks.py
lines 1341-1342): the map holds every record with a truthy `shopee_id`,
keyed by `str(shopee_id)`, later records overwriting earlier ones. -/
def shopeeMapGet (db : List MirrorProd) (k : Str) : Option MirrorProd :=
  (db.filter (fun p => truthyStr p.shopee_id && (p.shopee_id.getD [] == k))).getLast?

/-- Lookup in `lazada_id_map` (tasks.py lines 1343-1344). -/
def lazadaMapGet (db : List MirrorProd) (k : Str) : Option MirrorProd :=
  (db.filter (fun p => truthyStr p.lazada_id && (p.lazada_id.getD [] == k))).getLast?

/-- Lookup in `name_map` (tasks.py lines 1345-1346), keyed by the lowercased
name of every record with a truthy name. -/
def nameMapGet (db : List MirrorProd) (k : Str) : Option MirrorProd :=
  (db.filter (fun p => truthyStr p.name && ((p.name.getD []).map Char.toLower == k))).getLast?

/-- `all_product_names` (tasks.py line 1347): names of records with a truthy
name, in database order. -/
def allProductNames (db : List MirrorProd) : List Str :=
  db.filterMap (fun p => if truthyStr p.name then p.name else none)

/-- `thefuzz`'s `process.extractOne(query, choices, scorer)`: the first
choice attaining the maximal score (the Python `max` keeps the first maximal
element); `none` on an empty choice list.  The scorer argument models
`fuzz.token_set_ratio` composed with the default `full_process`
preprocessing. -/
def extractOneStep (score : Str → Str → ℚ) (q : Str) :
    Option (Str × ℚ) → Str → Option (Str × ℚ) := fun acc c =>
  match acc with
  | none => some (c, score q c)
  | some bp => if bp.2 < score q c then some (c, score q c) else acc

/-- The fold of `extractOne` over the choices, seeded empty. -/
def extractOne (score : Str → Str → ℚ) (q : Str) (choices : List Str) :
    Option (Str × ℚ) :=
  choices.foldl (extractOneStep score q) none

/-- Row match status. -/
inductive MatchStatus
  | MATCHED
  | UNMATCHED
deriving DecidableEq

/-- The staged fields of one import row produced by the matching section of
`import_from_google_sheet_task` (tasks.py lines 1377-1435). -/
structure StagedRow where
  slug : Option Str
  parsed_name : Option Str
  status : MatchStatus
  current_price : PVal
  nearest_match : Option Str
  shopee_id : Option Str
  lazada_id : Option Str
  shop_id : Option Str
  matched_db_id : Option ℤ
  matched_db_slug : Option Str
deriving DecidableEq

/-- The tier-1 (golden key) lookup (tasks.py lines 1382-1389): only
attempted with a truthy sheet product id, routed by source. -/
def tier1Lookup (db : List MirrorProd) (pid : Option Str) (source : Option Str) :
    Option MirrorProd :=
  if truthyStr pid then
    if source == some "shopee".toList then shopeeMapGet db (pid.getD [])
    else if source == some "lazada".toList then lazadaMapGet db (pid.getD [])
    else none
  else none

/-- The two-tier matching and staging logic for one import row (tasks.py
lines 1377-1435): tier 1 by external id, tier 2 by lowercased exact name,
and the advisory fuzzy nearest-match suggestion when both fail.  On a tier-1
match the working name of the row is overwritten with the catalog name and, on
any match, the slug with the catalog slug (`match.get(...)` defaults never
fire because mirror records carry every key). -/
def resolveRow (db : List MirrorProd) (score : Str → Str → ℚ) (cleaned slug0 : Str)
    (pid : Option Str) (shopId : Option Str) (source : Option Str) : StagedRow :=
  let tier1 := tier1Lookup db pid source
  let m := match tier1 with
    | some p => some p
    | none => nameMapGet db (cleaned.map Char.toLower)
  match m with
  | some mp =>
    { slug := mp.slug
      parsed_name := match tier1 with
        | some _ => mp.name
        | none => some cleaned
      status := MatchStatus.MATCHED
      current_price := if mp.sale_price.truthy then mp.sale_price else mp.price
      nearest_match := none
      shopee_id := if source == some "shopee".toList then pid else none
      lazada_id := if source == some "lazada".toList then pid else none
      shop_id := shopId
      matched_db_id := mp.id
      matched_db_slug := mp.slug }
  | none =>
    { slug := some slug0
      parsed_name := some cleaned
      status := MatchStatus.UNMATCHED
      current_price := PVal.pstr "N/A".toList
      nearest_match :=
        if (allProductNames db).isEmpty then none
        else
          match extractOne score cleaned (allProductNames db) with
          | some bp => some bp.1
          | none => none
      shopee_id := if source == some "shopee".toList then pid else none
      lazada_id := if source == some "lazada".toList then pid else none
      shop_id := shopId
      matched_db_id := none
      matched_db_slug := some slug0 }

/-! ## Sync Engine: `update_woocommerce_products_task`
(data_tasks.py lines 167-327) -/

/-- A payload id value arriving from the staging JSON: an integer or a
string. -/
inductive IdVal
  | intv (n : ℤ)
  | strv (s : Str)
deriving DecidableEq

/-- Python `int(x)` on such a value (`none` models the caught
`ValueError`/`TypeError` of data_tasks.py lines 214-217). -/
def pyIntOf : IdVal → Option ℤ
  | IdVal.intv n => some n
  | IdVal.strv s =>
    let t := pyStrip s
    let sg : ℤ := match t with
      | '-' :: _ => -1
      | _ => 1
    let t2 := match t with
      | '-' :: r => r
      | '+' :: r => r
      | _ => t
    if !t2.isEmpty && t2.all isDigitCh then some (sg * (digitsToNat t2 : ℤ)) else none

/-- One approved product row handed to the sync task. -/
structure ApprovedProd where
  action : Option Str
  matched_db_id : Option IdVal
  linked_db_id : Option IdVal
  parsed_name : Option Str
  new_sale_price : Option ℚ
  new_regular_price : Option ℚ
  affiliate_link : Option Str
  button_text : Option Str
  shopee_id : Option Str
  lazada_id : Option Str
  shop_id : Option Str
deriving DecidableEq

/-- `price_to_log` (data_tasks.py lines 240-246): the sale price when both
new prices are truthy, else the regular price, else the sale price, else
`None`. -/
def priceToLog (ap : ApprovedProd) : Option ℚ :=
  if truthyQ ap.new_sale_price && truthyQ ap.new_regular_price then ap.new_sale_price
  else if truthyQ ap.new_regular_price then ap.new_regular_price
  else if truthyQ ap.new_sale_price then ap.new_sale_price
  else none

/-- `local_prod_to_update.get('sale_price') or local_prod_to_update.get('regular_price')`
(data_tasks.py line 248). -/
def currentPriceVal (p : MirrorProd) : PVal :=
  if p.sale_price.truthy then p.sale_price else p.regular_price

/-- A new price value written back into the mirror record: the raw approved
value (a float or `None`). -/
def pvalOfOptQ : Option ℚ → PVal
  | none => PVal.null
  | some q => PVal.num q

/-- `str(x or "")` for the metadata strings. -/
def strOrEmpty (o : Option Str) : Str :=
  match o with
  | some s => if s.isEmpty then [] else s
  | none => []

/-- One entry of the WooCommerce batch payload (data_tasks.py lines
234-264).  String serialisation of prices and of the history JSON is
abstracted: the payload carries the values themselves. -/
structure WCPayload where
  id : Option ℤ
  name : Option Str
  external_url : Option Str
  button_text : Option Str
  price : Option ℚ
  regular_price : Option ℚ
  sale_price : Option ℚ
  meta_shopee : Str
  meta_lazada : Str
  meta_shop : Str
  meta_history : List HistEntry
deriving DecidableEq

/-- One per-product audit entry (data_tasks.py lines 265-273). -/
structure AuditEntry where
  name : Option Str
  wc_id : Option ℤ
  status : Str
  price_before : Option ℚ
  price_after : Option ℚ
deriving DecidableEq

/-- `price_changed` (data_tasks.py line 254): a non-`None` `price_to_log`
differing from the float of the currently stored price (the Python `!=`
between a float and `None` is true). -/
def mergeChanged (ap : ApprovedProd) (rec : MirrorProd) : Bool :=
  (priceToLog ap).isSome &&
    decide (priceToLog ap ≠ pvalToFloat (currentPriceVal rec))

/-- The per-row merge of an approved product into its mirror record
(data_tasks.py lines 222-274): update the identity fields, update the stored
prices and append to `price_history` only when `price_changed` (backfilling
the prior price for yesterday when the history was empty and the current price parsed),
and build the outbound payload and the audit entry. -/
def mergeIntoLocal (todayStr ysdStr : Str) (ap : ApprovedProd) (rec : MirrorProd) :
    MirrorProd × WCPayload × AuditEntry :=
  let newBtn : Option Str :=
    if truthyStr ap.button_text then ap.button_text else some "Check Price".toList
  let ptl := priceToLog ap
  let curF := pvalToFloat (currentPriceVal rec)
  let changed : Bool := mergeChanged ap rec
  let hist1 : List HistEntry :=
    if changed then
      (if rec.price_history.isEmpty then
        (match curF with
         | some c => [⟨ysdStr, c⟩]
         | none => [])
      else rec.price_history) ++ [⟨todayStr, ptl.getD 0⟩]
    else rec.price_history
  let rec3 : MirrorProd :=
    { rec with
      name := ap.parsed_name
      shopee_id := ap.shopee_id
      lazada_id := ap.lazada_id
      shop_id := ap.shop_id
      external_url := ap.affiliate_link
      button_text := newBtn
      sale_price := if changed then pvalOfOptQ ap.new_sale_price else rec.sale_price
      regular_price := if changed then pvalOfOptQ ap.new_regular_price else rec.regular_price
      price_history := hist1 }
  let payload : WCPayload :=
    { id := rec.id
      name := ap.parsed_name
      external_url := ap.affiliate_link
      button_text := newBtn
      price := ptl
      regular_price :=
        if truthyQ ap.new_sale_price && truthyQ ap.new_regular_price then ap.new_regular_price
        else if truthyQ ap.new_regular_price then ap.new_regular_price
        else if truthyQ ap.new_sale_price then ap.new_sale_price
        else none
      sale_price :=
        if truthyQ ap.new_sale_price && truthyQ ap.new_regular_price then ap.new_sale_price
        else none
      meta_shopee := strOrEmpty ap.shopee_id
      meta_lazada := strOrEmpty ap.lazada_id
      meta_shop := strOrEmpty ap.shop_id
      meta_history := hist1 }
  let audit : AuditEntry :=
    { name := ap.parsed_name
      wc_id := rec.id
      status := if changed then "Price Updated".toList else "Synced".toList
      price_before := curF
      price_after := if changed then ptl else curF }
  (rec3, payload, audit)

/-- `product_map_by_id` lookup (data_tasks.py lines 193 and 219): the index
and record of the last mirror entry carrying this id (later duplicate ids
overwrite earlier ones in the Python dict); mutation through the map aliases
the list that is later saved, so the caller updates the list at the returned
index. -/
def mirrorGetById (db : List MirrorProd) (t : ℤ) : Option (ℕ × MirrorProd) :=
  ((db.enum).filter (fun p => p.2.id == some t)).getLast?

/-- Processing of one approved row (data_tasks.py lines 201-274): route the
target id by `action`, convert it to an integer, look it up (a zero id is
falsy and skipped), and on success merge into the mirror and extend the
payload and audit lists; otherwise the row is skipped. -/
def processApproved (todayStr ysdStr : Str)
    (st : List MirrorProd × List WCPayload × List AuditEntry) (ap : ApprovedProd) :
    List MirrorProd × List WCPayload × List AuditEntry :=
  let db := st.1
  let rawId : Option IdVal :=
    if ap.action == some "approve".toList then ap.matched_db_id
    else if ap.action == some "link".toList then ap.linked_db_id
    else none
  let target : Option ℤ := rawId.bind pyIntOf
  match target with
  | some t =>
    if t ≠ 0 then
      match mirrorGetById db t with
      | some ir =>
        let r := mergeIntoLocal todayStr ysdStr ap ir.2
        (db.set ir.1 r.1, st.2.1 ++ [r.2.1], st.2.2 ++ [r.2.2])
      | none => st
    else st
  | none => st

/-- The full row-processing fold of the sync task (data_tasks.py
lines 201-274): the merged mirror, the outbound payload list and the audit
entry list. -/
def syncFoldResult (todayStr ysdStr : Str) (db : List MirrorProd)
    (approved : List ApprovedProd) :
    List MirrorProd × List WCPayload × List AuditEntry :=
  approved.foldl (processApproved todayStr ysdStr) (db, [], [])

/-- Job status values. -/
inductive JStatus
  | processing
  | complete
  | failed
deriving DecidableEq

/-- Externally visible effects of a task run, in chronological order. -/
inductive SyncEvent
  | statusWrite (st : JStatus) (msg : String)
  | chunkAttempt (chunk attempt : ℕ) (body : List WCPayload)
  | sleepFor (secs : ℚ)
  | mirrorSave (db : List MirrorProd)
  | redisAuditSave (entries : List AuditEntry) (ttlSecs : ℕ)
  | auditFileAppend (status : String) (totalFound totalSynced : ℕ)
      (failedIds : List ℤ) (err : Option String)
  | fetchAttempt (pid : ℤ) (attempt : ℕ)
deriving DecidableEq

/-- How the task ends: a Celery return value or a raised exception. -/
inductive TaskOutcome
  | returned (msg : String)
  | raised (msg : String)
deriving DecidableEq

/-- `[i:i+n]` chunking (data_tasks.py line 280), fuelled for evaluability. -/
def chunkListF (n : ℕ) : ℕ → List WCPayload → List (List WCPayload)
  | 0, _ => []
  | _ + 1, [] => []
  | fuel + 1, l => l.take n :: chunkListF n fuel (l.drop n)

/-- `[payload[i:i+25] for i in range(0, len(payload), 25)]`. -/
def chunkList (n : ℕ) (l : List WCPayload) : List (List WCPayload) :=
  chunkListF n l.length l

/-- The per-chunk retry loop (data_tasks.py lines 287-306): up to three
attempts, sleeping 5 seconds between failed attempts (both the HTTP-error
and the unexpected-error handlers retry); returns the events and whether the
chunk was sent. -/
def chunkAttemptsGo (attemptOk : ℕ → Bool) (i : ℕ) (body : List WCPayload) :
    ℕ → ℕ → List SyncEvent × Bool
  | _, 0 => ([], false)
  | a, r + 1 =>
    if attemptOk a then ([SyncEvent.chunkAttempt i a body], true)
    else if r = 0 then ([SyncEvent.chunkAttempt i a body], false)
    else
      let rest := chunkAttemptsGo attemptOk i body (a + 1) r
      (SyncEvent.chunkAttempt i a body :: SyncEvent.sleepFor 5 :: rest.1, rest.2)

/-- The chunk submission loop (data_tasks.py lines 283-307): per chunk, a
status update, the retry loop, a politeness delay after a successful send
when there is more than one chunk; failed chunks are counted, never aborting
the remaining chunks. -/
def chunksLoop (attemptOk : ℕ → ℕ → Bool) (total : ℕ) :
    ℕ → List (List WCPayload) → List SyncEvent × ℕ
  | _, [] => ([], 0)
  | i, ch :: rest =>
    let hd := SyncEvent.statusWrite JStatus.processing
      ("Syncing chunk " ++ toString (i + 1) ++ "/" ++ toString total ++ "...")
    let att := chunkAttemptsGo (fun a => attemptOk i a) i ch 0 3
    let tail : List SyncEvent :=
      if att.2 && decide (1 < total) then [SyncEvent.sleepFor 1] else []
    let rc := chunksLoop attemptOk total (i + 1) rest
    (hd :: att.1 ++ tail ++ rc.1, (if att.2 then 0 else 1) + rc.2)

/-- `update_woocommerce_products_task` (data_tasks.py lines 167-327).
Inputs beyond the payload: whether the WooCommerce client is configured,
the date strings for today and yesterday, the mirror file contents, and the
network behaviour `attemptOk chunk attempt` of each batch submission.
Produces the chronological effect trace and the outcome.  On a partial
failure the final `raise Exception(final_message)` is caught by the outer
handler, which writes the failed status once more and re-raises. -/
def update_woocommerce_products_task (wcOk : Bool) (todayStr ysdStr : Str)
    (attemptOk : ℕ → ℕ → Bool) (localProducts : List MirrorProd)
    (approved : List ApprovedProd) : List SyncEvent × TaskOutcome :=
  let ev0 := SyncEvent.statusWrite JStatus.processing
    ("Starting sync for " ++ toString approved.length ++ " products...")
  if !wcOk then
    ([ev0, SyncEvent.statusWrite JStatus.failed "WooCommerce API not configured."],
     TaskOutcome.returned "Task failed: WooCommerce API not configured.")
  else
    let st := syncFoldResult todayStr ysdStr localProducts approved
    if st.2.1.isEmpty then
      ([ev0, SyncEvent.statusWrite JStatus.complete
          "Sync complete. No products required an update."],
       TaskOutcome.returned "Sync complete. No products required an update.")
    else
      let chunks := chunkList 25 st.2.1
      let run := chunksLoop attemptOk chunks.length 0 chunks
      let post := [SyncEvent.mirrorSave st.1, SyncEvent.redisAuditSave st.2.2 86400]
      if 0 < run.2 then
        let fmsg := "Sync complete with errors. " ++ toString run.2 ++ " of " ++
          toString chunks.length ++ " chunks failed."
        (ev0 :: run.1 ++ post ++
          [SyncEvent.statusWrite JStatus.failed fmsg, SyncEvent.statusWrite JStatus.failed fmsg],
         TaskOutcome.raised fmsg)
      else
        let smsg := "Successfully synced all " ++ toString st.2.1.length ++ " products."
        (ev0 :: run.1 ++ post ++ [SyncEvent.statusWrite JStatus.complete smsg],
         TaskOutcome.returned smsg)

/-! ## Deep sync: `update_product_database_task` and `_create_audit_log`
(data_tasks.py lines 36-165) -/

/-- Outcome of one `wcapi.get("products/<id>")` attempt: success with the
assembled mirror record, a network error (retried), or an unexpected error
(not retried; data_tasks.py lines 142-144). -/
inductive FetchRes
  | ok (p : MirrorProd)
  | netErr
  | otherErr
deriving DecidableEq

/-- The per-product retry loop of the deep sync (data_tasks.py
lines 112-148): up to three attempts, 5-second sleeps between failed network
attempts, unexpected errors break immediately. -/
def fetchRetry (fetch : ℕ → FetchRes) (pid : ℤ) :
    ℕ → ℕ → List SyncEvent × Option MirrorProd
  | _, 0 => ([], none)
  | a, r + 1 =>
    match fetch a with
    | FetchRes.ok p => ([SyncEvent.fetchAttempt pid a], some p)
    | FetchRes.netErr =>
      if r = 0 then ([SyncEvent.fetchAttempt pid a], none)
      else
        let rest := fetchRetry fetch pid (a + 1) r
        (SyncEvent.fetchAttempt pid a :: SyncEvent.sleepFor 5 :: rest.1, rest.2)
    | FetchRes.otherErr => ([SyncEvent.fetchAttempt pid a], none)

/-- The deep-sync product loop (data_tasks.py lines 108-150): collect the
successfully fetched records in order and the failed ids, with a politeness
delay after every product. -/
def deepLoop (fetch : ℤ → ℕ → FetchRes) :
    List ℤ → List SyncEvent × List MirrorProd × List ℤ
  | [] => ([], [], [])
  | pid :: rest =>
    let r := fetchRetry (fetch pid) pid 0 3
    let rc := deepLoop fetch rest
    (r.1 ++ SyncEvent.sleepFor (1 / 2) :: rc.1,
     (match r.2 with
      | some p => p :: rc.2.1
      | none => rc.2.1),
     (match r.2 with
      | some _ => rc.2.2
      | none => pid :: rc.2.2))

/-- `_create_audit_log` (data_tasks.py lines 36-64): append one summary
entry to the persistent `audit_log.jsonl` file. -/
def create_audit_log (status : String) (totalFound totalSynced : ℕ)
    (failedIds : List ℤ) (err : Option String) : SyncEvent :=
  SyncEvent.auditFileAppend status totalFound totalSynced failedIds err

/-- `update_product_database_task` (data_tasks.py lines 67-165): fetch every
product id individually with retries, write the full mirror file once, and
append exactly one audit entry — `SUCCESS` with the found/synced/failed
totals on the normal path, `FAILED` from the outer handler (which then
re-raises) when the WooCommerce client is unavailable.  The paginated id
listing of step 1 is abstracted by the `ids` input (its errors only shorten
the list, data_tasks.py lines 86-95). -/
def update_product_database_task (wcOk : Bool) (ids : List ℤ)
    (fetch : ℤ → ℕ → FetchRes) : List SyncEvent × TaskOutcome :=
  if !wcOk then
    let msg := "A critical, unhandled error occurred: WooCommerce API client not available."
    ([create_audit_log "FAILED" 0 0 [] (some msg)], TaskOutcome.raised msg)
  else
    let r := deepLoop fetch ids
    (r.1 ++ [SyncEvent.mirrorSave r.2.1,
      create_audit_log "SUCCESS" ids.length r.2.1.length r.2.2 none],
     TaskOutcome.returned ("Deep Sync complete. Synced " ++ toString r.2.1.length ++
       "/" ++ toString ids.length ++ " products."))

/-! # Claim theorems -/

/-- Event classifier: mirror file writes. -/
def isMirrorSave : SyncEvent → Bool
  | SyncEvent.mirrorSave _ => true
  | _ => false

/-- Event classifier: batch submission attempts. -/
def isChunkAttempt : SyncEvent → Bool
  | SyncEvent.chunkAttempt _ _ _ => true
  | _ => false

/-- Event classifier: appends to the `audit_log.jsonl` file. -/
def isAuditFileAppend : SyncEvent → Bool
  | SyncEvent.auditFileAppend _ _ _ _ _ => true
  | _ => false

/-- **C8.** `clean_name("Galaxy Tab A9₱5560 -10K sold")` truncates the string
immediately before the first noise marker (the currency symbol `₱`, the
stage-1 result being exactly `"Galaxy Tab A9"`), and after the stage-2
keyword cleanup and whitespace trim returns exactly `"Galaxy Tab A9"`. -/
theorem claim_C8_clean_name_truncation :
    noiseTrunc (removeParens (removeBracketed "Galaxy Tab A9₱5560 -10K sold".toList))
      = "Galaxy Tab A9".toList
    ∧ clean_product_name "Galaxy Tab A9₱5560 -10K sold".toList = "Galaxy Tab A9".toList := by
  constructor
  · decide
  · decide

/-- **C9.** `slugify` is idempotent: for every input string `x`,
`slugify (slugify x) = slugify x`. -/
theorem claim_C9_slugify_idempotent : ∀ x : Str, slugify (slugify x) = slugify x :=
  slugify_idem

/-- **C4.** A row whose URL yields an external product id present in the
per-marketplace golden-key map resolves MATCHED via tier 1 — whatever the
row name — and the working name and slug are overwritten with the
canonical name and slug of the catalog record. -/
theorem claim_C4_tier1_overwrites (db : List MirrorProd) (score : Str → Str → ℚ)
    (cleaned slug0 : Str) (pid : Option Str) (shopId : Option Str)
    (source : Option Str) (rec : MirrorProd)
    (h : tier1Lookup db pid source = some rec) :
    (resolveRow db score cleaned slug0 pid shopId source).status = MatchStatus.MATCHED
    ∧ (resolveRow db score cleaned slug0 pid shopId source).parsed_name = rec.name
    ∧ (resolveRow db score cleaned slug0 pid shopId source).slug = rec.slug
    ∧ (resolveRow db score cleaned slug0 pid shopId source).matched_db_id = rec.id
    ∧ (resolveRow db score cleaned slug0 pid shopId source).matched_db_slug = rec.slug
    ∧ (resolveRow db score cleaned slug0 pid shopId source).nearest_match = none := by
  unfold resolveRow
  rw [h]
  exact ⟨rfl, rfl, rfl, rfl, rfl, rfl⟩

/-- A concrete catalog record for the C4 witness: external Shopee id `999`,
canonical name `Catalog Name`. -/
def recC4 : MirrorProd :=
  { id := some 77
    name := some "Catalog Name".toList
    slug := some "catalog-name".toList
    sale_price := PVal.pstr "5000".toList
    regular_price := PVal.null
    price := PVal.pstr "5000".toList
    external_url := none
    button_text := none
    shopee_id := some "999".toList
    lazada_id := none
    shop_id := none
    price_history := [] }

/-- Witness for C4: a row named `Different Name` with Shopee id `999`
resolves MATCHED against the catalog record and takes its name and slug. -/
theorem claim_C4_tier1_overwrites_witness :
    (resolveRow [recC4] (fun _ _ => 0) "Different Name".toList "different-name".toList
        (some "999".toList) none (some "shopee".toList)).status = MatchStatus.MATCHED
    ∧ (resolveRow [recC4] (fun _ _ => 0) "Different Name".toList "different-name".toList
        (some "999".toList) none (some "shopee".toList)).parsed_name
      = some "Catalog Name".toList
    ∧ (resolveRow [recC4] (fun _ _ => 0) "Different Name".toList "different-name".toList
        (some "999".toList) none (some "shopee".toList)).slug
      = some "catalog-name".toList
    ∧ (resolveRow [recC4] (fun _ _ => 0) "Different Name".toList "different-name".toList
        (some "999".toList) none (some "shopee".toList)).matched_db_id = some 77 := by
  have h := claim_C4_tier1_overwrites [recC4] (fun _ _ => 0) "Different Name".toList
    "different-name".toList (some "999".toList) none (some "shopee".toList) recC4
    (by decide)
  exact ⟨h.1, h.2.1, h.2.2.1, h.2.2.2.1⟩

theorem extractOne_fold_spec (score : Str → Str → ℚ) (q : Str) :
    ∀ (choices : List Str) (b0 : Str),
      ∃ b sb, choices.foldl (extractOneStep score q) (some (b0, score q b0)) = some (b, sb)
        ∧ sb = score q b ∧ (b = b0 ∨ b ∈ choices) ∧ score q b0 ≤ sb
        ∧ ∀ c ∈ choices, score q c ≤ sb := by
  intro choices
  induction choices with
  | nil =>
    intro b0
    exact ⟨b0, score q b0, rfl, rfl, Or.inl rfl, le_refl _, by simp⟩
  | cons c cs ih =>
    intro b0
    rw [List.foldl_cons]
    by_cases hlt : score q b0 < score q c
    · have hstep : extractOneStep score q (some (b0, score q b0)) c = some (c, score q c) := by
        unfold extractOneStep
        simp [hlt]
      rw [hstep]
      obtain ⟨b, sb, h1, h2, h3, h4, h5⟩ := ih c
      refine ⟨b, sb, h1, h2, ?_, ?_, ?_⟩
      · rcases h3 with h3 | h3
        · exact Or.inr (h3 ▸ List.mem_cons_self _ _)
        · exact Or.inr (List.mem_cons_of_mem _ h3)
      · exact le_trans (le_of_lt hlt) h4
      · intro x hx
        rcases List.mem_cons.mp hx with hx | hx
        · exact hx ▸ h4
        · exact h5 x hx
    · have hstep : extractOneStep score q (some (b0, score q b0)) c = some (b0, score q b0) := by
        unfold extractOneStep
        simp [hlt]
      rw [hstep]
      obtain ⟨b, sb, h1, h2, h3, h4, h5⟩ := ih b0
      refine ⟨b, sb, h1, h2, ?_, h4, ?_⟩
      · rcases h3 with h3 | h3
        · exact Or.inl h3
        · exact Or.inr (List.mem_cons_of_mem _ h3)
      · intro x hx
        rcases List.mem_cons.mp hx with hx | hx
        · exact hx ▸ le_trans (le_of_not_lt hlt) h4
        · exact h5 x hx

/-- `extractOne` on a nonempty choice list returns a choice whose score no
other choice exceeds. -/
theorem extractOne_spec (score : Str → Str → ℚ) (q : Str) {choices : List Str}
    (h : choices ≠ []) :
    ∃ b sb, extractOne score q choices = some (b, sb) ∧ b ∈ choices
      ∧ ∀ c ∈ choices, score q c ≤ sb := by
  cases choices with
  | nil => exact absurd rfl h
  | cons c cs =>
    unfold extractOne
    rw [List.foldl_cons]
    have hstep : extractOneStep score q none c = some (c, score q c) := rfl
    rw [hstep]
    obtain ⟨b, sb, h1, h2, h3, h4, h5⟩ := extractOne_fold_spec score q cs c
    refine ⟨b, sb, h1, ?_, ?_⟩
    · rcases h3 with h3 | h3
      · exact h3 ▸ List.mem_cons_self _ _
      · exact List.mem_cons_of_mem _ h3
    · intro x hx
      rcases List.mem_cons.mp hx with hx | hx
      · exact hx ▸ h4
      · exact h5 x hx

/-- **C6.** When both the tier-1 external-id lookup and the tier-2
case-folded name lookup fail, the row stays UNMATCHED (the fuzzy tier never
auto-matches), its `nearest_match` is the single highest-scoring catalog name
when the catalog has a named record, and stays `None` when it has none. -/
theorem claim_C6_unmatched_nearest (db : List MirrorProd) (score : Str → Str → ℚ)
    (cleaned slug0 : Str) (pid : Option Str) (shopId : Option Str) (source : Option Str)
    (h1 : tier1Lookup db pid source = none)
    (h2 : nameMapGet db (cleaned.map Char.toLower) = none) :
    (resolveRow db score cleaned slug0 pid shopId source).status = MatchStatus.UNMATCHED
    ∧ (resolveRow db score cleaned slug0 pid shopId source).matched_db_id = none
    ∧ (allProductNames db = [] →
        (resolveRow db score cleaned slug0 pid shopId source).nearest_match = none)
    ∧ (allProductNames db ≠ [] →
        ∃ best sb, (resolveRow db score cleaned slug0 pid shopId source).nearest_match = some best
          ∧ extractOne score cleaned (allProductNames db) = some (best, sb)
          ∧ best ∈ allProductNames db
          ∧ ∀ nm ∈ allProductNames db, score cleaned nm ≤ sb) := by
  unfold resolveRow
  rw [h1, h2]
  refine ⟨rfl, rfl, ?_, ?_⟩
  · intro he
    simp [he]
  · intro hne
    obtain ⟨b, sb, hb1, hb2, hb3⟩ := extractOne_spec score cleaned hne
    refine ⟨b, sb, ?_, hb1, hb2, hb3⟩
    have hemp : (allProductNames db).isEmpty = false := by
      cases hh : allProductNames db with
      | nil => exact absurd hh hne
      | cons x xs => rfl
    simp [hemp, hb1]

/-- Witness for C6: an unknown row against a one-record catalog stays
UNMATCHED with the single catalog name as suggestion, and against an empty
catalog stays UNMATCHED with no suggestion. -/
theorem claim_C6_unmatched_nearest_witness :
    (resolveRow [recC4] (fun _ _ => 0) "Unknown Gadget".toList "unknown-gadget".toList
        none none none).status = MatchStatus.UNMATCHED
    ∧ (∃ best sb,
        (resolveRow [recC4] (fun _ _ => 0) "Unknown Gadget".toList "unknown-gadget".toList
          none none none).nearest_match = some best
        ∧ extractOne (fun _ _ => 0) "Unknown Gadget".toList (allProductNames [recC4])
            = some (best, sb)
        ∧ best ∈ allProductNames [recC4])
    ∧ (resolveRow [] (fun _ _ => 0) "Unknown Gadget".toList "unknown-gadget".toList
        none none none).nearest_match = none := by
  have h := claim_C6_unmatched_nearest [recC4] (fun _ _ => 0) "Unknown Gadget".toList
    "unknown-gadget".toList none none none (by decide) (by decide)
  have h0 := claim_C6_unmatched_nearest [] (fun _ _ => 0) "Unknown Gadget".toList
    "unknown-gadget".toList none none none (by decide) (by decide)
  obtain ⟨b, sb, hb1, hb2, hb3, -⟩ := h.2.2.2 (by decide)
  exact ⟨h.1, ⟨b, sb, hb1, hb2, hb3⟩, h0.2.2.1 (by decide)⟩

/-- **C5.** `extract_prices` follows the three ordered disambiguation
scenarios — two or more parsed amounts give `(min, max)`; exactly one amount
with a discount marker gives the amount as sale price and
`round(sale / (1 - discount/100), 2)` as regular price when the discount
fraction lies strictly between 0 and 1 and `None` otherwise; exactly one
amount without a discount marker gives `(None, amount)`; no amounts give
`(None, None)` — and in particular
`extract_prices("₱23,000-27%") = (23000.0, 31506.85)` and
`extract_prices("₱15,000") = (None, 15000.0)`. -/
theorem claim_C5_extract_prices_scenarios (s : Str) (amts : List ℚ)
    (h : (findAmounts s).mapM parseAmount = some amts) :
    (2 ≤ amts.length →
      extract_prices s = (some (qListMin amts), some (qListMax amts)))
    ∧ (∀ a p, amts = [a] → findDiscount s = some p →
        ((0 < (p : ℚ) / 100 ∧ (p : ℚ) / 100 < 1) →
          extract_prices s = (some a, some (pyRound2 (a / (1 - (p : ℚ) / 100)))))
        ∧ (¬(0 < (p : ℚ) / 100 ∧ (p : ℚ) / 100 < 1) →
          extract_prices s = (some a, none)))
    ∧ (∀ a, amts = [a] → findDiscount s = none → extract_prices s = (none, some a))
    ∧ (amts = [] → extract_prices s = (none, none))
    ∧ extract_prices "₱23,000-27%".toList = (some 23000, some (630137 / 20))
    ∧ extract_prices "₱15,000".toList = (none, some 15000) := by
  have hcore : ∀ v, extractPricesCore s = some v → extract_prices s = v := by
    intro v hv
    unfold extract_prices
    rw [hv]
    rfl
  refine ⟨?_, ?_, ?_, ?_, ?_, ?_⟩
  · intro hlen
    apply hcore
    unfold extractPricesCore
    rw [h]
    simp only [Option.bind_eq_bind, Option.some_bind, if_pos hlen]
    rfl
  · intro a p ha hp
    subst ha
    constructor
    · intro hd
      apply hcore
      unfold extractPricesCore
      rw [h, hp]
      simp only [Option.bind_eq_bind, Option.some_bind, List.length_singleton]
      rw [if_neg (by norm_num), if_pos hd]
      rfl
    · intro hd
      apply hcore
      unfold extractPricesCore
      rw [h, hp]
      simp only [Option.bind_eq_bind, Option.some_bind, List.length_singleton]
      rw [if_neg (by norm_num), if_neg hd]
      rfl
  · intro a ha hd
    subst ha
    apply hcore
    unfold extractPricesCore
    rw [h, hd]
    simp only [Option.bind_eq_bind, Option.some_bind, List.length_singleton]
    rw [if_neg (by norm_num)]
    rfl
  · intro ha
    subst ha
    apply hcore
    unfold extractPricesCore
    rw [h]
    simp only [Option.bind_eq_bind, Option.some_bind, List.length_nil]
    rw [if_neg (by norm_num)]
    rfl
  · have h1 : (findAmounts "₱23,000-27%".toList).mapM parseAmount = some [(23000 : ℚ)] := by
      decide
    have h2 : findDiscount "₱23,000-27%".toList = some 27 := by decide
    unfold extract_prices extractPricesCore
    rw [h1, h2]
    have hif : (0 < (27 : ℚ) / 100 ∧ (27 : ℚ) / 100 < 1) := by norm_num
    simp only [Option.bind_eq_bind, Option.some_bind, List.length_cons, List.length_nil, hif,
      if_pos, Option.getD_some]
    have hr : pyRound2 ((2300000 : ℚ) / 73) = 630137 / 20 := by
      have hq : (2300000 : ℚ) / 73 * 100 = 230000000 / 73 := by norm_num
      unfold pyRound2
      rw [hq, roundHalfEven_eq_of_lt (n := 3150685) (by norm_num) (by norm_num)]
      norm_num
    norm_num [hr]
  · decide

/-- Witness for C5: the two-price scenario at a concrete input, plus the
concrete discount example through the theorem. -/
theorem claim_C5_extract_prices_scenarios_witness :
    extract_prices "₱10,000 ₱12,000".toList
      = (some (qListMin [(10000 : ℚ), 12000]), some (qListMax [(10000 : ℚ), 12000]))
    ∧ extract_prices "₱23,000-27%".toList = (some 23000, some (630137 / 20)) := by
  have h := claim_C5_extract_prices_scenarios "₱10,000 ₱12,000".toList
    [(10000 : ℚ), 12000] (by decide)
  exact ⟨h.1 (by decide), h.2.2.2.2.1⟩

/-- A netloc of bracket-free ASCII characters passes the `Invalid IPv6 URL`
guard of `urlsplit`. -/
theorem bracketMismatch_of_clean {n : Str}
    (h : n.all (fun c => !(c == '[' || c == ']') && asciiChar c) = true) :
    bracketMismatch n = false := by
  rw [List.all_eq_true] at h
  have h1 : n.any (fun c => c == '[') = false := by
    rw [List.any_eq_false]
    intro c hc
    have h2 := h c hc
    simp only [Bool.and_eq_true, Bool.not_eq_true', Bool.or_eq_false_iff] at h2
    simp [h2.1.1]
  have h3 : n.any (fun c => c == ']') = false := by
    rw [List.any_eq_false]
    intro c hc
    have h2 := h c hc
    simp only [Bool.and_eq_true, Bool.not_eq_true', Bool.or_eq_false_iff] at h2
    simp [h2.1.2]
  unfold bracketMismatch
  rw [h1, h3]
  rfl

/-- **C7 counterexample.**  The claim that the URL identity parser never
raises fails: on `"https://[x"` the unguarded `urlparse` call of
`parse_ecommerce_url` meets the netloc `[x`, which holds `[` without `]`,
and raises `ValueError("Invalid IPv6 URL")` — there is no try/except in
sheet_parser.py lines 368-396, so the exception reaches the caller instead
of the all-`None` sentinel. -/
theorem claim_C7_counterexample :
    parse_ecommerce_url (PyInput.str "https://[x".toList)
      = Except.error "Invalid IPv6 URL".toList := rfl

/-- **C7** (amended).  `extract_prices` never raises: any parse exception
inside it surfaces as `(None, None)`, and `parse_ecommerce_url` returns the
all-`None` record on a non-string input.  But the URL identity parser is
not raise-free: a URL whose netloc holds an unmatched square bracket makes
the unguarded `urlparse` call raise `ValueError` (`Invalid IPv6 URL`).  On
a URL whose netloc is bracket-free ASCII it never raises, and returns the
all-`None` record when the hostname holds neither marketplace and when the
marketplace URL patterns are absent. -/
theorem claim_C7_sentinels (s t : Str)
    (hexc : extractPricesCore s = none)
    (hcl : (netlocOf t).all (fun c => !(c == '[' || c == ']') && asciiChar c) = true)
    (hsh : containsSub "shopee".toList (hostStrOf t) = false)
    (hlz : containsSub "lazada".toList (hostStrOf t) = false) :
    extract_prices s = (none, none)
    ∧ parse_ecommerce_url PyInput.nonStr = Except.ok pyNone3
    ∧ (∀ r, bracketMismatch (netlocOf r) = true →
        parse_ecommerce_url (PyInput.str r) = Except.error "Invalid IPv6 URL".toList)
    ∧ parse_ecommerce_url (PyInput.str t) = Except.ok pyNone3
    ∧ (∀ r, (netlocOf r).all (fun c => !(c == '[' || c == ']') && asciiChar c) = true →
        shopeeIdsSearch r = none → lazadaPidSearch r = none →
        parse_ecommerce_url (PyInput.str r) = Except.ok pyNone3) := by
  refine ⟨?_, rfl, ?_, ?_, ?_⟩
  · unfold extract_prices
    rw [hexc]
    rfl
  · intro r hbm
    simp only [parse_ecommerce_url]
    rw [hbm]
    simp
  · have hbm := bracketMismatch_of_clean hcl
    simp only [parse_ecommerce_url]
    rw [hbm]
    simp only [Bool.false_eq_true, if_false]
    rw [hsh]
    simp only [Bool.false_eq_true, if_false]
    unfold lazadaPart
    rw [hlz]
    simp
  · intro r hclr hr1 hr2
    have hbm := bracketMismatch_of_clean hclr
    simp only [parse_ecommerce_url]
    rw [hbm]
    simp only [Bool.false_eq_true, if_false]
    by_cases hs : containsSub "shopee".toList (hostStrOf r) = true
    · rw [hs]
      simp only [if_true]
      rw [hr1]
      unfold lazadaPart
      by_cases hl : containsSub "lazada".toList (hostStrOf r) = true
      · rw [hl]
        simp only [if_true]
        rw [hr2]
      · rw [Bool.not_eq_true] at hl
        rw [hl]
        simp
    · rw [Bool.not_eq_true] at hs
      rw [hs]
      simp only [Bool.false_eq_true, if_false]
      unfold lazadaPart
      by_cases hl : containsSub "lazada".toList (hostStrOf r) = true
      · rw [hl]
        simp only [if_true]
        rw [hr2]
      · rw [Bool.not_eq_true] at hl
        rw [hl]
        simp

/-- Witness for C7: a comma-only amount makes the `float` call in the extractor raise
and the call still returns the sentinel pair; a non-string input, an
unrecognised host and a Shopee host without the id pattern all return the
all-`None` record, while the unmatched-bracket URL surfaces the
`ValueError`. -/
theorem claim_C7_sentinels_witness :
    extract_prices ",,,,".toList = (none, none)
    ∧ parse_ecommerce_url PyInput.nonStr = Except.ok pyNone3
    ∧ parse_ecommerce_url (PyInput.str "https://[x".toList)
        = Except.error "Invalid IPv6 URL".toList
    ∧ parse_ecommerce_url (PyInput.str "https://example.com/x".toList) = Except.ok pyNone3
    ∧ parse_ecommerce_url (PyInput.str "https://shopee.ph/foo".toList) = Except.ok pyNone3 := by
  have h := claim_C7_sentinels ",,,,".toList "https://example.com/x".toList
    (by decide) (by decide) (by decide) (by decide)
  exact ⟨h.1, h.2.1, h.2.2.1 "https://[x".toList (by decide), h.2.2.2.1,
    h.2.2.2.2 "https://shopee.ph/foo".toList (by decide) (by decide) (by decide)⟩

theorem parseAmount_nat {g : Str} {q : ℚ} (h : parseAmount g = some q) :
    ∃ n : ℕ, q = (n : ℚ) := by
  have h' : (if (g.filter (fun c => isDigitCh c)).isEmpty then none
      else some ((digitsToNat (g.filter (fun c => isDigitCh c)) : ℚ))) = some q := h
  split at h'
  · cases h'
  · injection h' with h2
    exact ⟨_, h2.symm⟩

theorem mapM_parseAmount_nat {gs : List Str} :
    ∀ {amts : List ℚ}, gs.mapM parseAmount = some amts →
      ∀ q ∈ amts, ∃ n : ℕ, q = (n : ℚ) := by
  induction gs with
  | nil =>
    intro amts h q hq
    rw [List.mapM_nil] at h
    injection h with h2
    rw [← h2] at hq
    cases hq
  | cons g gs ih =>
    intro amts h q hq
    rw [List.mapM_cons] at h
    cases hg : parseAmount g with
    | none => rw [hg] at h; cases h
    | some q0 =>
      rw [hg] at h
      cases hgs : gs.mapM parseAmount with
      | none => rw [hgs] at h; cases h
      | some qs =>
        rw [hgs] at h
        injection h with h2
        rw [← h2] at hq
        rcases List.mem_cons.mp hq with hq | hq
        · exact hq ▸ parseAmount_nat hg
        · exact ih hgs q hq

theorem foldl_min_le (l : List ℚ) : ∀ x : ℚ, l.foldl min x ≤ x := by
  induction l with
  | nil => intro x; exact le_refl x
  | cons y ys ih =>
    intro x
    rw [List.foldl_cons]
    exact le_trans (ih (min x y)) (min_le_left x y)

theorem le_foldl_max (l : List ℚ) : ∀ x : ℚ, x ≤ l.foldl max x := by
  induction l with
  | nil => intro x; exact le_refl x
  | cons y ys ih =>
    intro x
    rw [List.foldl_cons]
    exact le_trans (le_max_left x y) (ih (max x y))

theorem qListMin_le_qListMax {l : List ℚ} (h : l ≠ []) : qListMin l ≤ qListMax l := by
  cases l with
  | nil => exact absurd rfl h
  | cons a r =>
    unfold qListMin qListMax
    exact le_trans (foldl_min_le r a) (le_foldl_max r a)

/-- The scenario-2 reconstruction never undercuts the sale amount: the
parsed amount is a natural number, the quotient only enlarges it, and the
half-even rounding never drops below the floor. -/
theorem scenario2_le (n p : ℕ) (h1 : 0 < (p : ℚ) / 100) (h2 : (p : ℚ) / 100 < 1) :
    (n : ℚ) ≤ pyRound2 ((n : ℚ) / (1 - (p : ℚ) / 100)) := by
  set d : ℚ := (p : ℚ) / 100 with hd
  have hpos : 0 < 1 - d := by linarith
  have hn0 : (0 : ℚ) ≤ (n : ℚ) := by positivity
  have hx : (n : ℚ) ≤ (n : ℚ) / (1 - d) := by
    rw [le_div_iff₀ hpos]
    have hnd : 0 ≤ (n : ℚ) * d := mul_nonneg hn0 (le_of_lt h1)
    nlinarith
  have hfl : ((100 * n : ℤ) : ℚ) ≤ (n : ℚ) / (1 - d) * 100 := by
    push_cast
    linarith
  have hfl2 : (100 * n : ℤ) ≤ ⌊(n : ℚ) / (1 - d) * 100⌋ := Int.le_floor.mpr hfl
  have hrd : (100 * n : ℤ) ≤ roundHalfEven ((n : ℚ) / (1 - d) * 100) :=
    le_trans hfl2 (floor_le_roundHalfEven _)
  have hcast : ((100 * n : ℤ) : ℚ) ≤ (roundHalfEven ((n : ℚ) / (1 - d) * 100) : ℚ) := by
    exact_mod_cast hrd
  unfold pyRound2
  rw [le_div_iff₀ (by norm_num : (0 : ℚ) < 100)]
  calc (n : ℚ) * 100 = ((100 * n : ℤ) : ℚ) := by push_cast; ring
    _ ≤ _ := hcast

/-- **C10.** Whenever `extract_prices` returns with both prices present,
`sale_price ≤ regular_price`. -/
theorem claim_C10_sale_le_regular (s : Str) (a b : ℚ)
    (h : extract_prices s = (some a, some b)) : a ≤ b := by
  unfold extract_prices extractPricesCore at h
  cases hm : (findAmounts s).mapM parseAmount with
  | none => rw [hm] at h; cases h
  | some amts =>
    rw [hm] at h
    simp only [Option.bind_eq_bind, Option.some_bind] at h
    by_cases hlen : 2 ≤ amts.length
    · rw [if_pos hlen] at h
      have hne : amts ≠ [] := by
        intro he
        rw [he] at hlen
        exact absurd hlen (by norm_num)
      have h2 : (some (qListMin amts), some (qListMax amts))
          = ((some a, some b) : Option ℚ × Option ℚ) := h
      have ha : qListMin amts = a := by
        have h3 := congrArg Prod.fst h2
        injection h3
      have hb : qListMax amts = b := by
        have h3 := congrArg Prod.snd h2
        injection h3
      rw [← ha, ← hb]
      exact qListMin_le_qListMax hne
    · rw [if_neg hlen] at h
      match amts, hm with
      | [], hm =>
        cases hd : findDiscount s with
        | none =>
          have h' : ((none, none) : Option ℚ × Option ℚ) = (some a, some b) := by
            rw [hd] at h; exact h
          exact absurd (congrArg Prod.fst h') (by simp)
        | some p =>
          have h' : ((none, none) : Option ℚ × Option ℚ) = (some a, some b) := by
            rw [hd] at h; exact h
          exact absurd (congrArg Prod.fst h') (by simp)
      | [a0], hm =>
        cases hd : findDiscount s with
        | none =>
          have h' : ((none, some a0) : Option ℚ × Option ℚ) = (some a, some b) := by
            rw [hd] at h; exact h
          exact absurd (congrArg Prod.fst h') (by simp)
        | some p =>
          have h' : ((if 0 < (p : ℚ) / 100 ∧ (p : ℚ) / 100 < 1 then
              (some (some a0, some (pyRound2 (a0 / (1 - (p : ℚ) / 100))))
                : Option (Option ℚ × Option ℚ))
              else some (some a0, none)).getD (none, none) = (some a, some b)) := by
            rw [hd] at h; exact h
          by_cases hdv : (0 < (p : ℚ) / 100 ∧ (p : ℚ) / 100 < 1)
          · rw [if_pos hdv, Option.getD_some] at h'
            have ha : a0 = a := by
              have h3 := congrArg Prod.fst h'
              injection h3
            have hb : pyRound2 (a0 / (1 - (p : ℚ) / 100)) = b := by
              have h3 := congrArg Prod.snd h'
              injection h3
            obtain ⟨n, hn⟩ := mapM_parseAmount_nat hm a0 (List.mem_cons_self _ _)
            rw [← ha, ← hb, hn]
            exact scenario2_le n p hdv.1 hdv.2
          · rw [if_neg hdv, Option.getD_some] at h'
            exact absurd (congrArg Prod.snd h') (by simp)
      | a0 :: a1 :: rest, hm =>
        exact absurd (by simp [List.length_cons] : 2 ≤ (a0 :: a1 :: rest).length) hlen

/-- Witness for C10 at the two-price input `₱10,000 ₱12,000`. -/
theorem claim_C10_sale_le_regular_witness : (10000 : ℚ) ≤ 12000 :=
  claim_C10_sale_le_regular "₱10,000 ₱12,000".toList 10000 12000 (by decide)

theorem mergeIntoLocal_sale (t y : Str) (ap : ApprovedProd) (rec : MirrorProd) :
    (mergeIntoLocal t y ap rec).1.sale_price
      = if mergeChanged ap rec then pvalOfOptQ ap.new_sale_price else rec.sale_price := rfl

theorem mergeIntoLocal_regular (t y : Str) (ap : ApprovedProd) (rec : MirrorProd) :
    (mergeIntoLocal t y ap rec).1.regular_price
      = if mergeChanged ap rec then pvalOfOptQ ap.new_regular_price else rec.regular_price := rfl

theorem mergeIntoLocal_hist (t y : Str) (ap : ApprovedProd) (rec : MirrorProd) :
    (mergeIntoLocal t y ap rec).1.price_history
      = if mergeChanged ap rec then
          (if rec.price_history.isEmpty then
            (match pvalToFloat (currentPriceVal rec) with
             | some c => [⟨y, c⟩]
             | none => [])
          else rec.price_history) ++ [⟨t, (priceToLog ap).getD 0⟩]
        else rec.price_history := rfl

theorem truthyQ_some {o : Option ℚ} (h : truthyQ o = true) :
    ∃ q, o = some q ∧ q ≠ 0 := by
  cases o with
  | none => cases h
  | some q =>
    refine ⟨q, rfl, ?_⟩
    have : decide (q ≠ 0) = true := h
    exact of_decide_eq_true this

theorem truthyQ_false_pval {o : Option ℚ} (h : truthyQ o = false) :
    (pvalOfOptQ o).truthy = false := by
  cases o with
  | none => rfl
  | some q => exact h

/-- After a price-changing merge, the stored price equals `price_to_log`, so
an immediate re-merge sees no change. -/
theorem ptl_eq_cur_after (t y : Str) (ap : ApprovedProd) (rec : MirrorProd)
    (h : mergeChanged ap rec = true) :
    priceToLog ap = pvalToFloat (currentPriceVal (mergeIntoLocal t y ap rec).1) := by
  have hsome : (priceToLog ap).isSome = true := by
    have h' := h
    unfold mergeChanged at h'
    rw [Bool.and_eq_true] at h'
    exact h'.1
  have hs := mergeIntoLocal_sale t y ap rec
  have hr := mergeIntoLocal_regular t y ap rec
  rw [if_pos h] at hs hr
  unfold currentPriceVal
  rw [hs, hr]
  by_cases h1 : truthyQ ap.new_sale_price = true
  · obtain ⟨q, hq, hq0⟩ := truthyQ_some h1
    have htr : (pvalOfOptQ ap.new_sale_price).truthy = true := by
      rw [hq]
      exact decide_eq_true hq0
    rw [if_pos htr, hq]
    unfold priceToLog
    rw [h1]
    by_cases h2 : truthyQ ap.new_regular_price = true
    · rw [h2]
      simp [hq, pvalToFloat, pvalOfOptQ]
    · rw [Bool.not_eq_true] at h2
      rw [h2]
      simp [hq, pvalToFloat, pvalOfOptQ]
  · rw [Bool.not_eq_true] at h1
    rw [if_neg (by rw [truthyQ_false_pval h1]; exact Bool.false_ne_true)]
    unfold priceToLog
    rw [h1]
    by_cases h2 : truthyQ ap.new_regular_price = true
    · rw [h2]
      obtain ⟨q, hq, hq0⟩ := truthyQ_some h2
      simp [hq, pvalToFloat, pvalOfOptQ]
    · rw [Bool.not_eq_true] at h2
      rw [h2]
      unfold priceToLog at hsome
      rw [h1, h2] at hsome
      simp at hsome

/-- A merge that does not change the price leaves the price fields intact,
so the current price seen by a re-merge is unchanged. -/
theorem cur_after_unchanged (t y : Str) (ap : ApprovedProd) (rec : MirrorProd)
    (h : mergeChanged ap rec = false) :
    currentPriceVal (mergeIntoLocal t y ap rec).1 = currentPriceVal rec := by
  have hs := mergeIntoLocal_sale t y ap rec
  have hr := mergeIntoLocal_regular t y ap rec
  rw [if_neg (by rw [h]; exact Bool.false_ne_true)] at hs hr
  unfold currentPriceVal
  rw [hs, hr]

/-- **C3.** Price-history append is idempotent: merging the same approved
row a second time appends no further history entry (the history length after
the second merge equals the length after the first), and when the computed
new price equals the currently stored price the history is left untouched. -/
theorem claim_C3_price_history_idempotent (t y : Str) (ap : ApprovedProd)
    (rec : MirrorProd) :
    ((mergeIntoLocal t y ap (mergeIntoLocal t y ap rec).1).1.price_history.length
      = (mergeIntoLocal t y ap rec).1.price_history.length)
    ∧ (priceToLog ap = pvalToFloat (currentPriceVal rec) →
        (mergeIntoLocal t y ap rec).1.price_history = rec.price_history) := by
  constructor
  · by_cases h : mergeChanged ap rec = true
    · have h2 : mergeChanged ap (mergeIntoLocal t y ap rec).1 = false := by
        unfold mergeChanged
        rw [← ptl_eq_cur_after t y ap rec h]
        simp
      rw [mergeIntoLocal_hist, if_neg (by rw [h2]; exact Bool.false_ne_true)]
    · rw [Bool.not_eq_true] at h
      have h2 : mergeChanged ap (mergeIntoLocal t y ap rec).1 = false := by
        unfold mergeChanged
        rw [cur_after_unchanged t y ap rec h]
        unfold mergeChanged at h
        exact h
      rw [mergeIntoLocal_hist, if_neg (by rw [h2]; exact Bool.false_ne_true)]
  · intro heq
    have hch : mergeChanged ap rec = false := by
      unfold mergeChanged
      rw [heq]
      simp
    rw [mergeIntoLocal_hist, if_neg (by rw [hch]; exact Bool.false_ne_true)]

/-- Approved row for the C3 witness: same row, no new prices. -/
def apC3 : ApprovedProd :=
  { action := some "approve".toList
    matched_db_id := some (IdVal.intv 1)
    linked_db_id := none
    parsed_name := some "X".toList
    new_sale_price := none
    new_regular_price := none
    affiliate_link := none
    button_text := none
    shopee_id := none
    lazada_id := none
    shop_id := none }

/-- Mirror record for the C3 witness, with one existing history entry. -/
def recC3 : MirrorProd :=
  { id := some 1
    name := none
    slug := none
    sale_price := PVal.null
    regular_price := PVal.null
    price := PVal.null
    external_url := none
    button_text := none
    shopee_id := none
    lazada_id := none
    shop_id := none
    price_history := [⟨"2026-10-10".toList, 100⟩] }

/-- Witness for C3: with an unchanged (here: absent) computed price, the
merge leaves the history untouched and a second merge appends nothing. -/
theorem claim_C3_price_history_idempotent_witness :
    priceToLog apC3 = pvalToFloat (currentPriceVal recC3)
    ∧ (mergeIntoLocal "2026-10-12".toList "2026-10-11".toList apC3 recC3).1.price_history
        = recC3.price_history
    ∧ ((mergeIntoLocal "2026-10-12".toList "2026-10-11".toList apC3
          (mergeIntoLocal "2026-10-12".toList "2026-10-11".toList apC3 recC3).1).1.price_history.length
        = (mergeIntoLocal "2026-10-12".toList "2026-10-11".toList apC3 recC3).1.price_history.length) := by
  have h := claim_C3_price_history_idempotent "2026-10-12".toList "2026-10-11".toList apC3 recC3
  exact ⟨by decide, h.2 (by decide), h.1⟩

theorem chunkAttemptsGo_shape (A : ℕ → Bool) (i : ℕ) (ch : List WCPayload) :
    ∀ r a, ∀ e ∈ (chunkAttemptsGo A i ch a r).1,
      isChunkAttempt e = true ∨ ∃ q, e = SyncEvent.sleepFor q := by
  intro r
  induction r with
  | zero => intro a e he; cases he
  | succ r ih =>
    intro a e he
    rw [chunkAttemptsGo] at he
    by_cases hA : A a = true
    · rw [if_pos hA] at he
      rcases List.mem_cons.mp he with he | he
      · exact Or.inl (he ▸ rfl)
      · cases he
    · rw [if_neg hA] at he
      by_cases hr : r = 0
      · rw [if_pos hr] at he
        rcases List.mem_cons.mp he with he | he
        · exact Or.inl (he ▸ rfl)
        · cases he
      · rw [if_neg hr] at he
        rcases List.mem_cons.mp he with he | he
        · exact Or.inl (he ▸ rfl)
        · rcases List.mem_cons.mp he with he | he
          · exact Or.inr ⟨5, he⟩
          · exact ih (a + 1) e he

theorem chunksLoop_shape (A : ℕ → ℕ → Bool) (total : ℕ) :
    ∀ chs i, ∀ e ∈ (chunksLoop A total i chs).1,
      isChunkAttempt e = true ∨ (∃ q, e = SyncEvent.sleepFor q)
      ∨ ∃ m, e = SyncEvent.statusWrite JStatus.processing m := by
  intro chs
  induction chs with
  | nil => intro i e he; cases he
  | cons ch rest ih =>
    intro i e he
    rw [chunksLoop] at he
    rcases List.mem_cons.mp he with he | he
    · exact Or.inr (Or.inr ⟨_, he⟩)
    · rcases List.mem_append.mp he with he | he
      · rcases List.mem_append.mp he with he | he
        · rcases chunkAttemptsGo_shape (fun a => A i a) i ch 3 0 e he with h | h
          · exact Or.inl h
          · exact Or.inr (Or.inl h)
        · by_cases hc : ((chunkAttemptsGo (fun a => A i a) i ch 0 3).2 && decide (1 < total)) = true
          · rw [if_pos hc] at he
            rcases List.mem_cons.mp he with he | he
            · exact Or.inr (Or.inl ⟨1, he⟩)
            · cases he
          · rw [if_neg hc] at he
            cases he
      · exact ih (i + 1) e he

theorem chunkPhase_not_mirror {e : SyncEvent}
    (h : isChunkAttempt e = true ∨ (∃ q, e = SyncEvent.sleepFor q)
      ∨ ∃ m, e = SyncEvent.statusWrite JStatus.processing m) :
    isMirrorSave e = false ∧ isAuditFileAppend e = false := by
  rcases h with h | ⟨q, h⟩ | ⟨m, h⟩
  · cases e <;> simp_all [isChunkAttempt, isMirrorSave, isAuditFileAppend]
  · subst h; exact ⟨rfl, rfl⟩
  · subst h; exact ⟨rfl, rfl⟩

theorem chunkAttemptsGo_first (A : ℕ → Bool) (i : ℕ) (ch : List WCPayload)
    (a r : ℕ) (hr : r ≠ 0) :
    SyncEvent.chunkAttempt i a ch ∈ (chunkAttemptsGo A i ch a r).1 := by
  cases r with
  | zero => exact absurd rfl hr
  | succ r =>
    rw [chunkAttemptsGo]
    by_cases hA : A a = true
    · rw [if_pos hA]
      exact List.mem_cons_self _ _
    · rw [if_neg hA]
      by_cases hr0 : r = 0
      · rw [if_pos hr0]
        exact List.mem_cons_self _ _
      · rw [if_neg hr0]
        exact List.mem_cons_self _ _

theorem chunksLoop_attempt0 (A : ℕ → ℕ → Bool) (total : ℕ) :
    ∀ chs i j ch, chs[j]? = some ch →
      SyncEvent.chunkAttempt (i + j) 0 ch ∈ (chunksLoop A total i chs).1 := by
  intro chs
  induction chs with
  | nil => intro i j ch h; cases h
  | cons c rest ih =>
    intro i j ch h
    rw [chunksLoop]
    cases j with
    | zero =>
      rw [List.getElem?_cons_zero] at h
      injection h with h2
      subst h2
      refine List.mem_cons_of_mem _ (List.mem_append.mpr (Or.inl (List.mem_append.mpr (Or.inl ?_))))
      have hfst := chunkAttemptsGo_first (fun a => A i a) i c 0 3 (by norm_num)
      simpa using hfst
    | succ k =>
      rw [List.getElem?_cons_succ] at h
      have hmem := ih (i + 1) k ch h
      have harith : i + 1 + k = i + (k + 1) := by omega
      rw [harith] at hmem
      exact List.mem_cons_of_mem _ (List.mem_append.mpr (Or.inr hmem))

theorem chunkAttemptsGo_allfail (A : ℕ → Bool) (i : ℕ) (ch : List WCPayload) :
    ∀ r a, (∀ x, x < r → A (a + x) = false) → (chunkAttemptsGo A i ch a r).2 = false := by
  intro r
  induction r with
  | zero => intro a _; rfl
  | succ r ih =>
    intro a hall
    rw [chunkAttemptsGo]
    have hA : A a = false := by
      have := hall 0 (by omega)
      simpa using this
    rw [if_neg (by rw [hA]; exact Bool.false_ne_true)]
    by_cases hr : r = 0
    · rw [if_pos hr]
    · rw [if_neg hr]
      show (chunkAttemptsGo A i ch (a + 1) r).2 = false
      apply ih
      intro x hx
      have := hall (x + 1) (by omega)
      rw [← this]
      congr 1
      omega

theorem chunksLoop_fail_pos (A : ℕ → ℕ → Bool) (total : ℕ) :
    ∀ chs i j, j < chs.length → (∀ a, a < 3 → A (i + j) a = false) →
      0 < (chunksLoop A total i chs).2 := by
  intro chs
  induction chs with
  | nil => intro i j hj _; cases hj
  | cons c rest ih =>
    intro i j hj hfail
    rw [chunksLoop]
    cases j with
    | zero =>
      have hfalse : (chunkAttemptsGo (fun a => A i a) i c 0 3).2 = false := by
        apply chunkAttemptsGo_allfail
        intro x hx
        have := hfail x hx
        simpa using this
      show 0 < (if (chunkAttemptsGo (fun a => A i a) i c 0 3).2 = true then 0 else 1) +
        (chunksLoop A total (i + 1) rest).2
      rw [if_neg (by rw [hfalse]; exact Bool.false_ne_true)]
      omega
    | succ k =>
      have hk : k < rest.length := by
        rw [List.length_cons] at hj
        omega
      have hpos := ih (i + 1) k hk (by
        intro a ha
        have harith : i + 1 + k = i + (k + 1) := by omega
        rw [harith]
        exact hfail a ha)
      show 0 < (if (chunkAttemptsGo (fun a => A i a) i c 0 3).2 = true then 0 else 1) +
        (chunksLoop A total (i + 1) rest).2
      exact lt_of_lt_of_le hpos (Nat.le_add_left _ _)

/-- The event/outcome equation of a partially failing sync run. -/
theorem sync_run_splitfail (t y : Str) (A : ℕ → ℕ → Bool) (db : List MirrorProd)
    (ap : List ApprovedProd)
    (hne : (syncFoldResult t y db ap).2.1 ≠ [])
    (hf : 0 < (chunksLoop A (chunkList 25 (syncFoldResult t y db ap).2.1).length 0
        (chunkList 25 (syncFoldResult t y db ap).2.1)).2) :
    update_woocommerce_products_task true t y A db ap
      = (SyncEvent.statusWrite JStatus.processing
            ("Starting sync for " ++ toString ap.length ++ " products...")
          :: (chunksLoop A (chunkList 25 (syncFoldResult t y db ap).2.1).length 0
              (chunkList 25 (syncFoldResult t y db ap).2.1)).1
          ++ [SyncEvent.mirrorSave (syncFoldResult t y db ap).1,
              SyncEvent.redisAuditSave (syncFoldResult t y db ap).2.2 86400]
          ++ [SyncEvent.statusWrite JStatus.failed
                ("Sync complete with errors. "
                  ++ toString (chunksLoop A (chunkList 25 (syncFoldResult t y db ap).2.1).length 0
                      (chunkList 25 (syncFoldResult t y db ap).2.1)).2
                  ++ " of "
                  ++ toString (chunkList 25 (syncFoldResult t y db ap).2.1).length
                  ++ " chunks failed."),
              SyncEvent.statusWrite JStatus.failed
                ("Sync complete with errors. "
                  ++ toString (chunksLoop A (chunkList 25 (syncFoldResult t y db ap).2.1).length 0
                      (chunkList 25 (syncFoldResult t y db ap).2.1)).2
                  ++ " of "
                  ++ toString (chunkList 25 (syncFoldResult t y db ap).2.1).length
                  ++ " chunks failed.")],
        TaskOutcome.raised
          ("Sync complete with errors. "
            ++ toString (chunksLoop A (chunkList 25 (syncFoldResult t y db ap).2.1).length 0
                (chunkList 25 (syncFoldResult t y db ap).2.1)).2
            ++ " of "
            ++ toString (chunkList 25 (syncFoldResult t y db ap).2.1).length
            ++ " chunks failed.")) := by
  have hempty : (syncFoldResult t y db ap).2.1.isEmpty = false := by
    cases hh : (syncFoldResult t y db ap).2.1 with
    | nil => exact absurd hh hne
    | cons a l => rfl
  unfold update_woocommerce_products_task
  simp only [hempty, Bool.not_true, Bool.false_eq_true, if_false]
  rw [if_pos hf]

/-- **C1.** When some chunks of a sync run fail all 3 retry attempts, the
task does not abort the remaining chunks: every chunk is still submitted, the
in-memory mirror (holding every merged row, the successfully sent chunk
data included) is persisted to the mirror file exactly once after all chunk
attempts, the audit entries are recorded, the final job status is `failed`
with a message counting the failed chunks, and the task re-raises so the job
queue marks the job failed. -/
theorem claim_C1_partial_failure_sync (t y : Str) (A : ℕ → ℕ → Bool)
    (db : List MirrorProd) (ap : List ApprovedProd)
    (hne : (syncFoldResult t y db ap).2.1 ≠ [])
    (hfail : ∃ j, j < (chunkList 25 (syncFoldResult t y db ap).2.1).length ∧
        ∀ a, a < 3 → A j a = false) :
    ∃ pre post fc,
      (update_woocommerce_products_task true t y A db ap).1
        = pre ++ SyncEvent.mirrorSave (syncFoldResult t y db ap).1 :: post
      ∧ (∀ e ∈ pre, isMirrorSave e = false)
      ∧ (∀ e ∈ post, isMirrorSave e = false)
      ∧ (∀ e ∈ post, isChunkAttempt e = false)
      ∧ (∀ j ch, (chunkList 25 (syncFoldResult t y db ap).2.1)[j]? = some ch →
          SyncEvent.chunkAttempt j 0 ch ∈ pre)
      ∧ 0 < fc
      ∧ post = [SyncEvent.redisAuditSave (syncFoldResult t y db ap).2.2 86400,
          SyncEvent.statusWrite JStatus.failed
            ("Sync complete with errors. " ++ toString fc ++ " of "
              ++ toString (chunkList 25 (syncFoldResult t y db ap).2.1).length
              ++ " chunks failed."),
          SyncEvent.statusWrite JStatus.failed
            ("Sync complete with errors. " ++ toString fc ++ " of "
              ++ toString (chunkList 25 (syncFoldResult t y db ap).2.1).length
              ++ " chunks failed.")]
      ∧ (update_woocommerce_products_task true t y A db ap).2
          = TaskOutcome.raised
            ("Sync complete with errors. " ++ toString fc ++ " of "
              ++ toString (chunkList 25 (syncFoldResult t y db ap).2.1).length
              ++ " chunks failed.") := by
  obtain ⟨j, hj, hja⟩ := hfail
  have hf : 0 < (chunksLoop A (chunkList 25 (syncFoldResult t y db ap).2.1).length 0
      (chunkList 25 (syncFoldResult t y db ap).2.1)).2 := by
    apply chunksLoop_fail_pos A _ _ 0 j hj
    intro a ha
    rw [Nat.zero_add]
    exact hja a ha
  have hrun := sync_run_splitfail t y A db ap hne hf
  refine ⟨SyncEvent.statusWrite JStatus.processing
      ("Starting sync for " ++ toString ap.length ++ " products...")
    :: (chunksLoop A (chunkList 25 (syncFoldResult t y db ap).2.1).length 0
        (chunkList 25 (syncFoldResult t y db ap).2.1)).1,
    [SyncEvent.redisAuditSave (syncFoldResult t y db ap).2.2 86400,
      SyncEvent.statusWrite JStatus.failed _, SyncEvent.statusWrite JStatus.failed _],
    (chunksLoop A (chunkList 25 (syncFoldResult t y db ap).2.1).length 0
        (chunkList 25 (syncFoldResult t y db ap).2.1)).2,
    ?_, ?_, ?_, ?_, ?_, hf, rfl, ?_⟩
  · rw [congrArg Prod.fst hrun]
    simp
  · intro e he
    rcases List.mem_cons.mp he with he | he
    · rw [he]
      rfl
    · exact (chunkPhase_not_mirror (chunksLoop_shape A _ _ 0 e he)).1
  · intro e he
    rcases List.mem_cons.mp he with he | he
    · rw [he]; rfl
    · rcases List.mem_cons.mp he with he | he
      · rw [he]; rfl
      · rcases List.mem_cons.mp he with he | he
        · rw [he]; rfl
        · cases he
  · intro e he
    rcases List.mem_cons.mp he with he | he
    · rw [he]; rfl
    · rcases List.mem_cons.mp he with he | he
      · rw [he]; rfl
      · rcases List.mem_cons.mp he with he | he
        · rw [he]; rfl
        · cases he
  · intro k ch hch
    have hmem := chunksLoop_attempt0 A
      (chunkList 25 (syncFoldResult t y db ap).2.1).length
      (chunkList 25 (syncFoldResult t y db ap).2.1) 0 k ch hch
    rw [Nat.zero_add] at hmem
    exact List.mem_cons_of_mem _ hmem
  · rw [congrArg Prod.snd hrun]

/-- Mirror record `k+1` for the C1 witness. -/
def recW (k : ℕ) : MirrorProd :=
  { id := some ((k : ℤ) + 1)
    name := none
    slug := none
    sale_price := PVal.null
    regular_price := PVal.null
    price := PVal.null
    external_url := none
    button_text := none
    shopee_id := none
    lazada_id := none
    shop_id := none
    price_history := [] }

/-- Approved row targeting mirror record `k+1` for the C1 witness. -/
def apW (k : ℕ) : ApprovedProd :=
  { action := some "approve".toList
    matched_db_id := some (IdVal.intv ((k : ℤ) + 1))
    linked_db_id := none
    parsed_name := none
    new_sale_price := none
    new_regular_price := none
    affiliate_link := none
    button_text := none
    shopee_id := none
    lazada_id := none
    shop_id := none }

/-- 26 mirror records: the payload splits into two chunks of 25 and 1. -/
def dbC1 : List MirrorProd := (List.range 26).map recW

/-- 26 approved rows, one per mirror record. -/
def apsC1 : List ApprovedProd := (List.range 26).map apW

/-- Network behaviour for the C1 witness: chunk 0 fails every attempt,
chunk 1 succeeds. -/
def okC1 : ℕ → ℕ → Bool := fun j _ => j == 1

/-- Witness for C1: a two-chunk run where chunk 0 fails all three attempts
and chunk 1 succeeds. -/
theorem claim_C1_partial_failure_sync_witness :
    ∃ pre post fc,
      (update_woocommerce_products_task true "2026-10-12".toList "2026-10-11".toList
          okC1 dbC1 apsC1).1
        = pre ++ SyncEvent.mirrorSave
            (syncFoldResult "2026-10-12".toList "2026-10-11".toList dbC1 apsC1).1 :: post
      ∧ (∀ e ∈ pre, isMirrorSave e = false)
      ∧ (∀ e ∈ post, isMirrorSave e = false)
      ∧ (∀ e ∈ post, isChunkAttempt e = false)
      ∧ (∀ j ch, (chunkList 25
            (syncFoldResult "2026-10-12".toList "2026-10-11".toList dbC1 apsC1).2.1)[j]?
              = some ch →
          SyncEvent.chunkAttempt j 0 ch ∈ pre)
      ∧ 0 < fc
      ∧ post = [SyncEvent.redisAuditSave
            (syncFoldResult "2026-10-12".toList "2026-10-11".toList dbC1 apsC1).2.2 86400,
          SyncEvent.statusWrite JStatus.failed
            ("Sync complete with errors. " ++ toString fc ++ " of "
              ++ toString (chunkList 25
                  (syncFoldResult "2026-10-12".toList "2026-10-11".toList dbC1 apsC1).2.1).length
              ++ " chunks failed."),
          SyncEvent.statusWrite JStatus.failed
            ("Sync complete with errors. " ++ toString fc ++ " of "
              ++ toString (chunkList 25
                  (syncFoldResult "2026-10-12".toList "2026-10-11".toList dbC1 apsC1).2.1).length
              ++ " chunks failed.")]
      ∧ (update_woocommerce_products_task true "2026-10-12".toList "2026-10-11".toList
          okC1 dbC1 apsC1).2
          = TaskOutcome.raised
            ("Sync complete with errors. " ++ toString fc ++ " of "
              ++ toString (chunkList 25
                  (syncFoldResult "2026-10-12".toList "2026-10-11".toList dbC1 apsC1).2.1).length
              ++ " chunks failed.") :=
  claim_C1_partial_failure_sync "2026-10-12".toList "2026-10-11".toList okC1 dbC1 apsC1
    (by decide) ⟨0, by decide, fun a _ => rfl⟩

/-- The event/outcome equation of a fully successful sync run. -/
theorem sync_run_complete (t y : Str) (A : ℕ → ℕ → Bool) (db : List MirrorProd)
    (ap : List ApprovedProd)
    (hne : (syncFoldResult t y db ap).2.1 ≠ [])
    (hf : ¬0 < (chunksLoop A (chunkList 25 (syncFoldResult t y db ap).2.1).length 0
        (chunkList 25 (syncFoldResult t y db ap).2.1)).2) :
    update_woocommerce_products_task true t y A db ap
      = (SyncEvent.statusWrite JStatus.processing
            ("Starting sync for " ++ toString ap.length ++ " products...")
          :: (chunksLoop A (chunkList 25 (syncFoldResult t y db ap).2.1).length 0
              (chunkList 25 (syncFoldResult t y db ap).2.1)).1
          ++ [SyncEvent.mirrorSave (syncFoldResult t y db ap).1,
              SyncEvent.redisAuditSave (syncFoldResult t y db ap).2.2 86400]
          ++ [SyncEvent.statusWrite JStatus.complete
                ("Successfully synced all "
                  ++ toString (syncFoldResult t y db ap).2.1.length ++ " products.")],
        TaskOutcome.returned
          ("Successfully synced all "
            ++ toString (syncFoldResult t y db ap).2.1.length ++ " products.")) := by
  have hempty : (syncFoldResult t y db ap).2.1.isEmpty = false := by
    cases hh : (syncFoldResult t y db ap).2.1 with
    | nil => exact absurd hh hne
    | cons a l => rfl
  unfold update_woocommerce_products_task
  simp only [hempty, Bool.not_true, Bool.false_eq_true, if_false]
  rw [if_neg hf]

theorem chunksLoop_filter_audit (A : ℕ → ℕ → Bool) (total : ℕ)
    (chs : List (List WCPayload)) (i : ℕ) :
    (chunksLoop A total i chs).1.filter isAuditFileAppend = [] := by
  rw [List.filter_eq_nil_iff]
  intro e he
  rw [(chunkPhase_not_mirror (chunksLoop_shape A total chs i e he)).2]
  exact Bool.false_ne_true

theorem fetchRetry_shape (fetch : ℕ → FetchRes) (pid : ℤ) :
    ∀ r a, ∀ e ∈ (fetchRetry fetch pid a r).1,
      (∃ b, e = SyncEvent.fetchAttempt pid b) ∨ ∃ q, e = SyncEvent.sleepFor q := by
  intro r
  induction r with
  | zero => intro a e he; cases he
  | succ r ih =>
    intro a e he
    rw [fetchRetry] at he
    rcases hf : fetch a with p | _ | _ <;> rw [hf] at he
    · rcases List.mem_cons.mp he with he | he
      · exact Or.inl ⟨a, he⟩
      · cases he
    · by_cases hr : r = 0
      · rw [if_pos hr] at he
        rcases List.mem_cons.mp he with he | he
        · exact Or.inl ⟨a, he⟩
        · cases he
      · rw [if_neg hr] at he
        rcases List.mem_cons.mp he with he | he
        · exact Or.inl ⟨a, he⟩
        · rcases List.mem_cons.mp he with he | he
          · exact Or.inr ⟨5, he⟩
          · exact ih (a + 1) e he
    · rcases List.mem_cons.mp he with he | he
      · exact Or.inl ⟨a, he⟩
      · cases he

theorem deepLoop_filter_audit (fetch : ℤ → ℕ → FetchRes) :
    ∀ ids, (deepLoop fetch ids).1.filter isAuditFileAppend = [] := by
  intro ids
  induction ids with
  | nil => rfl
  | cons pid rest ih =>
    rw [deepLoop]
    rw [List.filter_append, List.filter_cons]
    rw [show isAuditFileAppend (SyncEvent.sleepFor (1 / 2)) = false from rfl]
    simp only [Bool.false_eq_true, if_false]
    rw [ih]
    have hfil : (fetchRetry (fetch pid) pid 0 3).1.filter isAuditFileAppend = [] := by
      rw [List.filter_eq_nil_iff]
      intro e he
      rcases fetchRetry_shape (fetch pid) pid 3 0 e he with ⟨b, hb⟩ | ⟨q, hq⟩
      · rw [hb]
        exact Bool.false_ne_true
      · rw [hq]
        exact Bool.false_ne_true
    rw [hfil]
    rfl

/-- Counterexample to **C2** as stated: a successful sync run of
`update_woocommerce_products_task` (one approved row, one chunk, no
failures) performs zero appends to the persistent audit-log file — not
exactly one — and instead stores its per-product audit entries in Redis
under a key with a 86400-second TTL. -/
theorem claim_C2_counterexample :
    ¬(((update_woocommerce_products_task true "2026-10-12".toList "2026-10-11".toList
        (fun _ _ => true) [recW 0] [apW 0]).1.filter isAuditFileAppend).length = 1)
    ∧ SyncEvent.redisAuditSave
        (syncFoldResult "2026-10-12".toList "2026-10-11".toList [recW 0] [apW 0]).2.2 86400
      ∈ (update_woocommerce_products_task true "2026-10-12".toList "2026-10-11".toList
        (fun _ _ => true) [recW 0] [apW 0]).1 := by
  constructor
  · decide
  · decide

/-- **C2 (amended).** It is the deep-sync mirror rebuild
(`update_product_database_task`) that records exactly one audit-log entry per
run — summarising totals found / synced / failed — appended to the
persistent `audit_log.jsonl` file; `update_woocommerce_products_task`
instead stores its per-product audit entries in Redis under a job-scoped key
with a 24-hour TTL and never touches the audit file. -/
theorem claim_C2_amended_audit (ids : List ℤ) (fetch : ℤ → ℕ → FetchRes)
    (t y : Str) (A : ℕ → ℕ → Bool) (db : List MirrorProd)
    (approved : List ApprovedProd)
    (hne : (syncFoldResult t y db approved).2.1 ≠ []) :
    (update_product_database_task true ids fetch).1.filter isAuditFileAppend
      = [create_audit_log "SUCCESS" ids.length (deepLoop fetch ids).2.1.length
          (deepLoop fetch ids).2.2 none]
    ∧ (update_woocommerce_products_task true t y A db approved).1.filter
        isAuditFileAppend = []
    ∧ SyncEvent.redisAuditSave (syncFoldResult t y db approved).2.2 86400
        ∈ (update_woocommerce_products_task true t y A db approved).1 := by
  refine ⟨?_, ?_, ?_⟩
  · show ((deepLoop fetch ids).1 ++ [SyncEvent.mirrorSave (deepLoop fetch ids).2.1,
      create_audit_log "SUCCESS" ids.length (deepLoop fetch ids).2.1.length
        (deepLoop fetch ids).2.2 none]).filter isAuditFileAppend = _
    rw [List.filter_append, deepLoop_filter_audit]
    rfl
  · by_cases hf : 0 < (chunksLoop A (chunkList 25 (syncFoldResult t y db approved).2.1).length 0
        (chunkList 25 (syncFoldResult t y db approved).2.1)).2
    · rw [congrArg Prod.fst (sync_run_splitfail t y A db approved hne hf)]
      simp [List.filter_append, chunksLoop_filter_audit, isAuditFileAppend]
    · rw [congrArg Prod.fst (sync_run_complete t y A db approved hne hf)]
      simp [List.filter_append, chunksLoop_filter_audit, isAuditFileAppend]
  · by_cases hf : 0 < (chunksLoop A (chunkList 25 (syncFoldResult t y db approved).2.1).length 0
        (chunkList 25 (syncFoldResult t y db approved).2.1)).2
    · rw [congrArg Prod.fst (sync_run_splitfail t y A db approved hne hf)]
      dsimp only
      refine List.mem_cons_of_mem _ (List.mem_append.mpr (Or.inl (List.mem_append.mpr (Or.inr ?_))))
      exact List.mem_cons_of_mem _ (List.mem_cons_self _ _)
    · rw [congrArg Prod.fst (sync_run_complete t y A db approved hne hf)]
      dsimp only
      refine List.mem_cons_of_mem _ (List.mem_append.mpr (Or.inl (List.mem_append.mpr (Or.inr ?_))))
      exact List.mem_cons_of_mem _ (List.mem_cons_self _ _)

/-- Witness for the amended C2: one fetched product, one synced row. -/
theorem claim_C2_amended_audit_witness :
    (update_product_database_task true [5] (fun _ _ => FetchRes.ok (recW 0))).1.filter
        isAuditFileAppend
      = [create_audit_log "SUCCESS" 1
          (deepLoop (fun _ _ => FetchRes.ok (recW 0)) [5]).2.1.length
          (deepLoop (fun _ _ => FetchRes.ok (recW 0)) [5]).2.2 none]
    ∧ (update_woocommerce_products_task true "2026-10-12".toList "2026-10-11".toList
        (fun _ _ => true) [recW 0] [apW 0]).1.filter isAuditFileAppend = []
    ∧ SyncEvent.redisAuditSave
        (syncFoldResult "2026-10-12".toList "2026-10-11".toList [recW 0] [apW 0]).2.2 86400
      ∈ (update_woocommerce_products_task true "2026-10-12".toList "2026-10-11".toList
        (fun _ _ => true) [recW 0] [apW 0]).1 := by
  have h := claim_C2_amended_audit [5] (fun _ _ => FetchRes.ok (recW 0))
    "2026-10-12".toList "2026-10-11".toList (fun _ _ => true) [recW 0] [apW 0] (by decide)
  exact ⟨h.1, h.2.1, h.2.2⟩
